import Mathlib

/-!
# RavingPixies firmware: a shallow embedding of `RavingPixies.cpp`

The firmware drives a single-axis spark-erosion machine from two cores: core 0 runs the
menu/edit loop (`main`), core 1 runs `SparklingThread`.  The embedding below turns the
global variables of the program into one `State` record, every function that touches
them into a state transformer, and every clock read (`time_us_64()`) and sensor read
(`gpio_get`) into an explicit input.  Calls into the hardware (flash, interrupts, the
inter-core lockout, GPIO writes, sleeps) are recorded in `State.trace` in program order.
Display drawing and `printf` are not modelled, and neither is the floating point
`targetDepth`.

Machine integers are natural numbers reduced modulo their width at every arithmetic
operation that can leave the range.
-/

namespace RavingPixies

/-! ## Constants -/

abbrev PIN_BUTTON_UP : Nat := 2
abbrev PIN_BUTTON_DOWN : Nat := 3
abbrev PIN_BUTTON_NEXT : Nat := 4
abbrev PIN_BUTTON_PREV : Nat := 5
abbrev PIN_STEPPER_DIR : Nat := 16
abbrev PIN_STEPPER_STEP : Nat := 17

abbrev SETTINGS_MAGIC : Nat := 0xBEEFCAFE
abbrev FLASH_TARGET_OFFSET : Nat := 1024 * 500
abbrev SETTINGS_BLOCK_SIZE : Nat := 4096
abbrev SETTINGS_ROTATE_EVERY : Nat := 5000
abbrev SETTINGS_MAX_BLOCKS : Nat := 10
abbrev SAVE_DELAY_MS : Nat := 5000
abbrev REPEAT_TIME_MS : Nat := 150

abbrev TON_MIN : Nat := 10
abbrev TON_MAX : Nat := 200
abbrev TON_STEP : Nat := 10
abbrev TOFF_MIN : Nat := 50
abbrev TOFF_MAX : Nat := 500
abbrev TOFF_STEP : Nat := 25

/-- Number of values of `uint8_t`. -/
abbrev U8 : Nat := 2 ^ 8
/-- Number of values of `uint16_t`. -/
abbrev U16 : Nat := 2 ^ 16
/-- Number of values of `uint32_t`. -/
abbrev U32 : Nat := 2 ^ 32
/-- Number of values of `uint64_t`. -/
abbrev U64 : Nat := 2 ^ 64

/-! ## Data model -/

/-- The enumeration `ui_state_t`, in declaration order (`UI_JOG = 0`). -/
inductive ui_state_t
  | UI_JOG
  | UI_DEPTH0
  | UI_DEPTH1
  | UI_DEPTH2
  | UI_DEPTH3
  | UI_TON
  | UI_TOFF
  | UI_STATE_COUNT
  | UI_PREBURN
  | UI_BURN
  | UI_POSTBURN
  deriving DecidableEq, Repr

open ui_state_t

/-- The integer value of an enumerator. -/
def ui_state_t.toNat : ui_state_t → Nat
  | UI_JOG => 0
  | UI_DEPTH0 => 1
  | UI_DEPTH1 => 2
  | UI_DEPTH2 => 3
  | UI_DEPTH3 => 4
  | UI_TON => 5
  | UI_TOFF => 6
  | UI_STATE_COUNT => 7
  | UI_PREBURN => 8
  | UI_BURN => 9
  | UI_POSTBURN => 10

/-- The cast `(ui_state_t)n`.  The program only casts values below `UI_STATE_COUNT`;
values that name no enumerator are mapped to `UI_POSTBURN` to keep the function total. -/
def ui_state_t.cast : Nat → ui_state_t
  | 0 => UI_JOG
  | 1 => UI_DEPTH0
  | 2 => UI_DEPTH1
  | 3 => UI_DEPTH2
  | 4 => UI_DEPTH3
  | 5 => UI_TON
  | 6 => UI_TOFF
  | 7 => UI_STATE_COUNT
  | 8 => UI_PREBURN
  | 9 => UI_BURN
  | _ => UI_POSTBURN

/-- The record `settings_t`; the array `depthDigits[4]` is held as four fields that are
read and written through `getDigit` / `setDigit`.  In memory the record is 16 bytes,
little endian, fields in declaration order: `magic` at bytes 0..3, `ton_us` at 4..5,
`toff_us` at 6..7, `depthDigits` at 8..11 and `numWrites` at 12..15. -/
structure settings_t where
  magic : Nat
  ton_us : Nat
  toff_us : Nat
  depthDigits0 : Nat
  depthDigits1 : Nat
  depthDigits2 : Nat
  depthDigits3 : Nat
  numWrites : Nat
  deriving DecidableEq, Repr

/-- The read `st.depthDigits[i]` for an index inside the array. -/
def settings_t.getDigit (st : settings_t) : Nat → Nat
  | 0 => st.depthDigits0
  | 1 => st.depthDigits1
  | 2 => st.depthDigits2
  | 3 => st.depthDigits3
  | _ => 0

/-- The write `st.depthDigits[i] = v` for an index inside the array (other indices are
handled by `setDigitAt`). -/
def settings_t.setDigit (st : settings_t) (i v : Nat) : settings_t :=
  match i with
  | 0 => { st with depthDigits0 := v }
  | 1 => { st with depthDigits1 := v }
  | 2 => { st with depthDigits2 := v }
  | 3 => { st with depthDigits3 := v }
  | _ => st

/-- Byte `k` (0 is the least significant) of the unsigned integer `x`. -/
def byteOf (x k : Nat) : Nat := x / 256 ^ k % 256

/-- The unsigned integer `x` with its byte `k` replaced by the byte `v`. -/
def withByte (x k v : Nat) : Nat := x - byteOf x k * 256 ^ k + v % 256 * 256 ^ k

/-- The read `st.depthDigits[i]` for a signed index `i`, as a byte access at offset `8 + i`
of the record.  The main loop calls `handle_ui_depth` only in `UI_DEPTH0..UI_DEPTH3`, but
the handler reads `uiState` again, and when the other core or a button event has changed
the mode in between the index leaves the array: it is -1 for `UI_JOG`, 4 for `UI_TON`,
7 for `UI_PREBURN`.  Indices -8..-1 and 4..7 address the neighbouring fields of the
record; an index outside -8..7 addresses memory outside `settings`, which is not
modelled, and reads as 0 here. -/
def settings_t.getDigitAt (st : settings_t) (i : Int) : Nat :=
  if 0 ≤ i ∧ i < 4 then st.getDigit i.toNat
  else if 4 ≤ i ∧ i < 8 then byteOf st.numWrites (i - 4).toNat
  else if -2 ≤ i ∧ i < 0 then byteOf st.toff_us (i + 2).toNat
  else if -4 ≤ i ∧ i < -2 then byteOf st.ton_us (i + 4).toNat
  else if -8 ≤ i ∧ i < -4 then byteOf st.magic (i + 8).toNat
  else 0

/-- The write `st.depthDigits[i] = v` for a signed index `i`, as a byte access at offset
`8 + i` of the record (see `getDigitAt`); a write outside the record is not modelled and
leaves the record unchanged. -/
def settings_t.setDigitAt (st : settings_t) (i : Int) (v : Nat) : settings_t :=
  if 0 ≤ i ∧ i < 4 then st.setDigit i.toNat v
  else if 4 ≤ i ∧ i < 8 then { st with numWrites := withByte st.numWrites (i - 4).toNat v }
  else if -2 ≤ i ∧ i < 0 then { st with toff_us := withByte st.toff_us (i + 2).toNat v }
  else if -4 ≤ i ∧ i < -2 then { st with ton_us := withByte st.ton_us (i + 4).toNat v }
  else if -8 ≤ i ∧ i < -4 then { st with magic := withByte st.magic (i + 8).toNat v }
  else st

/-- Calls into the hardware, recorded in program order. -/
inductive Effect
  | save_and_disable_interrupts
  | multicore_lockout_start_blocking
  | flash_range_erase (offset count : Nat)
  | flash_range_program (offset : Nat) (data : settings_t) (count : Nat)
  | multicore_lockout_end_blocking
  | restore_interrupts
  | gpio_put (pin : Nat) (value : Bool)
  | sleep_us (n : Nat)
  | sleep_ms (n : Nat)
  deriving DecidableEq, Repr

/-- The argument of the button callback: `button->pin` and `button->state`. -/
structure button_t where
  pin : Nat
  state : Bool
  deriving DecidableEq, Repr

/-- All global variables of the program, the local `wasSparking` of `SparklingThread`,
the settings area of the flash (the record stored at each flash offset) and the log of
hardware calls. -/
structure State where
  uiState : ui_state_t
  rezeroOnBurn : Bool
  moveDirectionDown : Bool
  shouldMove : Bool
  nextSaveTimeMS : Nat
  settings : settings_t
  upPressed : Bool
  downPressed : Bool
  upRepeatTime : Nat
  downRepeatTime : Nat
  wasSparking : Bool
  flash : Nat → settings_t
  trace : List Effect

/-- The static initialiser of `settings`. -/
def defaultSettings : settings_t :=
  { magic := SETTINGS_MAGIC, ton_us := 50, toff_us := 200,
    depthDigits0 := 0, depthDigits1 := 0, depthDigits2 := 0, depthDigits3 := 0,
    numWrites := 0 }

/-- The content of an erased flash sector read as a `settings_t`: every bit is one. -/
def erasedRecord : settings_t :=
  { magic := U32 - 1, ton_us := U16 - 1, toff_us := U16 - 1,
    depthDigits0 := U8 - 1, depthDigits1 := U8 - 1, depthDigits2 := U8 - 1,
    depthDigits3 := U8 - 1, numWrites := U32 - 1 }

/-- The expression `time_us_64() / 1000` for a clock reading `time_us_64`. -/
def now_ms (time_us_64 : Nat) : Nat := time_us_64 % U64 / 1000

/-! ## Settings store -/

/-- The flash offset of settings slot `i`. -/
def slotOffset (i : Nat) : Nat := FLASH_TARGET_OFFSET + i * SETTINGS_BLOCK_SIZE

/-- Effect of `flash_range_erase(offset, count)` on the stored records. -/
def flashErase (offset count : Nat) (flash : Nat → settings_t) : Nat → settings_t :=
  fun a => if offset ≤ a ∧ a < offset + count then erasedRecord else flash a

/-- Effect of `flash_range_program(offset, buffer, count)` on the stored records, where
`buffer` starts with the bytes of `data`; the sector has just been erased, so the
programmed bytes read back as written. -/
def flashProgram (offset : Nat) (data : settings_t) (flash : Nat → settings_t) :
    Nat → settings_t :=
  fun a => if a = offset then data else flash a

/-- The function `SaveSettings`. -/
def SaveSettings (s : State) : State :=
  let settings : settings_t :=
    { s.settings with magic := SETTINGS_MAGIC, numWrites := (s.settings.numWrites + 1) % U32 }
  let offset : Nat :=
    (FLASH_TARGET_OFFSET +
      ((settings.numWrites / SETTINGS_ROTATE_EVERY) % SETTINGS_MAX_BLOCKS) * SETTINGS_BLOCK_SIZE)
      % U32
  let buffer : settings_t := settings
  { s with
    settings := settings
    flash := flashProgram offset buffer (flashErase offset SETTINGS_BLOCK_SIZE s.flash)
    trace := s.trace ++
      [ Effect.save_and_disable_interrupts,
        Effect.multicore_lockout_start_blocking,
        Effect.flash_range_erase offset SETTINGS_BLOCK_SIZE,
        Effect.flash_range_program offset buffer SETTINGS_BLOCK_SIZE,
        Effect.multicore_lockout_end_blocking,
        Effect.restore_interrupts ] }

/-- The function `ScheduleSaveSettings`, reading the clock as `time_us_64`. -/
def ScheduleSaveSettings (time_us_64 : Nat) (s : State) : State :=
  { s with nextSaveTimeMS := (now_ms time_us_64 + SAVE_DELAY_MS) % U64 }

/-- The function `MaybeSaveSettings`, reading the clock as `time_us_64`. -/
def MaybeSaveSettings (time_us_64 : Nat) (s : State) : State :=
  if s.nextSaveTimeMS = 0 then s
  else if now_ms time_us_64 ≥ s.nextSaveTimeMS then
    { SaveSettings s with nextSaveTimeMS := 0 }
  else s

/-- The loop of `LoadSettings` with `n` slots left to examine: it looks at slot `n - 1`
first and yields the first candidate whose marker matches. -/
def LoadSettings_scan (flash : Nat → settings_t) : Nat → Option settings_t
  | 0 => none
  | n + 1 =>
    let offset := (FLASH_TARGET_OFFSET + n * SETTINGS_BLOCK_SIZE) % U32
    let candidate := flash offset
    if candidate.magic = SETTINGS_MAGIC then some candidate
    else LoadSettings_scan flash n

/-- The function `LoadSettings`. -/
def LoadSettings (s : State) : State :=
  match LoadSettings_scan s.flash SETTINGS_MAX_BLOCKS with
  | some candidate => { s with settings := candidate }
  | none => { s with settings := { s.settings with magic := SETTINGS_MAGIC } }

/-! ## Buttons -/

/-- The callback `OnButtonStateChange`, reading the clock as `time_us_64`. -/
def OnButtonStateChange (button : button_t) (time_us_64 : Nat) (s : State) : State :=
  if s.uiState = UI_BURN ∨ s.uiState = UI_POSTBURN then s
  else
    let s1 : State :=
      if button.pin = PIN_BUTTON_UP then
        { s with
          upPressed := button.state
          upRepeatTime := if button.state then (now_ms time_us_64 + U64 - 1) % U64 else 0 }
      else s
    let s2 : State :=
      if button.pin = PIN_BUTTON_DOWN then
        { s1 with
          downPressed := button.state
          downRepeatTime := if button.state then (now_ms time_us_64 + U64 - 1) % U64 else 0 }
      else s1
    if s2.uiState = UI_PREBURN then s2
    else if button.pin = PIN_BUTTON_NEXT then
      if !button.state then
        { s2 with uiState := ui_state_t.cast ((s2.uiState.toNat + 1) % UI_STATE_COUNT.toNat) }
      else s2
    else if button.pin = PIN_BUTTON_PREV then
      if !button.state then
        { s2 with
          uiState :=
            ui_state_t.cast ((s2.uiState.toNat + UI_STATE_COUNT.toNat - 1) % UI_STATE_COUNT.toNat) }
      else s2
    else s2

/-- The function `TryUseUpButton`: its return value and the state it leaves. -/
def TryUseUpButton (time_us_64 : Nat) (s : State) : Bool × State :=
  if s.upRepeatTime > 0 ∧ now_ms time_us_64 > s.upRepeatTime then
    (true, { s with upRepeatTime := (s.upRepeatTime + REPEAT_TIME_MS) % U64 })
  else (false, s)

/-- The function `TryUseDownButton`: its return value and the state it leaves. -/
def TryUseDownButton (time_us_64 : Nat) (s : State) : Bool × State :=
  if s.downRepeatTime > 0 ∧ now_ms time_us_64 > s.downRepeatTime then
    (true, { s with downRepeatTime := (s.downRepeatTime + REPEAT_TIME_MS) % U64 })
  else (false, s)

/-! ## UI handlers

Each handler takes the clock readings of the calls it makes, in call order: `tUp` for
`TryUseUpButton`, `tDown` for `TryUseDownButton`, `tSave` for `ScheduleSaveSettings`. -/

/-- The function `handle_ui_jog`. -/
def handle_ui_jog (s : State) : State :=
  { s with
    shouldMove := xor s.upPressed s.downPressed
    moveDirectionDown := !s.upPressed
    trace := s.trace ++ [Effect.sleep_ms 10] }

/-- The function `handle_ui_depth`.  `digit_index` is the signed `int` of the source,
computed from the mode the handler reads. -/
def handle_ui_depth (tUp tDown tSave : Nat) (s : State) : State :=
  let digit_index : Int := (s.uiState.toNat : Int) - (UI_DEPTH0.toNat : Int)
  let up := TryUseUpButton tUp s
  let s1 : State :=
    if up.1 then
      let incremented := (up.2.settings.getDigitAt digit_index + 1) % U8
      { up.2 with
        settings :=
          up.2.settings.setDigitAt digit_index (if incremented > 9 then 0 else incremented) }
    else up.2
  let down := TryUseDownButton tDown s1
  let s2 : State :=
    if down.1 then
      if down.2.settings.getDigitAt digit_index = 0 then
        { down.2 with settings := down.2.settings.setDigitAt digit_index 9 }
      else
        { down.2 with
          settings :=
            down.2.settings.setDigitAt digit_index
              ((down.2.settings.getDigitAt digit_index + U8 - 1) % U8) }
    else down.2
  let changed : Bool := up.1 || down.1
  let s3 : State := if changed then ScheduleSaveSettings tSave s2 else s2
  { s3 with trace := s3.trace ++ [Effect.sleep_ms 10] }

/-- The function `handle_ui_ton`. -/
def handle_ui_ton (tUp tDown tSave : Nat) (s : State) : State :=
  let up := TryUseUpButton tUp s
  let upChanged : Bool := up.1 && decide (up.2.settings.ton_us < TON_MAX)
  let s1 : State :=
    if upChanged then
      { up.2 with
        settings := { up.2.settings with ton_us := (up.2.settings.ton_us + TON_STEP) % U16 } }
    else up.2
  let down := TryUseDownButton tDown s1
  let downChanged : Bool := down.1 && decide (down.2.settings.ton_us > TON_MIN)
  let s2 : State :=
    if downChanged then
      { down.2 with
        settings :=
          { down.2.settings with ton_us := (down.2.settings.ton_us + U16 - TON_STEP) % U16 } }
    else down.2
  let changed : Bool := upChanged || downChanged
  let s3 : State := if changed then ScheduleSaveSettings tSave s2 else s2
  { s3 with trace := s3.trace ++ [Effect.sleep_ms 10] }

/-- The function `handle_ui_toff`. -/
def handle_ui_toff (tUp tDown tSave : Nat) (s : State) : State :=
  let up := TryUseUpButton tUp s
  let upChanged : Bool := up.1 && decide (up.2.settings.toff_us < TOFF_MAX)
  let s1 : State :=
    if upChanged then
      { up.2 with
        settings := { up.2.settings with toff_us := (up.2.settings.toff_us + TOFF_STEP) % U16 } }
    else up.2
  let down := TryUseDownButton tDown s1
  let downChanged : Bool := down.1 && decide (down.2.settings.toff_us > TOFF_MIN)
  let s2 : State :=
    if downChanged then
      { down.2 with
        settings :=
          { down.2.settings with toff_us := (down.2.settings.toff_us + U16 - TOFF_STEP) % U16 } }
    else down.2
  let changed : Bool := upChanged || downChanged
  let s3 : State := if changed then ScheduleSaveSettings tSave s2 else s2
  { s3 with trace := s3.trace ++ [Effect.sleep_ms 10] }

/-- The function `handle_ui_burn`. -/
def handle_ui_burn (s : State) : State :=
  { s with trace := s.trace ++ [Effect.sleep_ms 10] }

/-- The function `handle_ui_preburn`. -/
def handle_ui_preburn (tUp tDown : Nat) (s : State) : State :=
  let up := TryUseUpButton tUp s
  let s1 : State :=
    if up.1 then { up.2 with rezeroOnBurn := true, uiState := UI_BURN }
    else
      let down := TryUseDownButton tDown up.2
      if down.1 then { down.2 with rezeroOnBurn := false, uiState := UI_BURN }
      else down.2
  { s1 with trace := s1.trace ++ [Effect.sleep_ms 10] }

/-- The function `handle_ui_postburn`. -/
def handle_ui_postburn (s : State) : State :=
  { s with trace := s.trace ++ [Effect.sleep_ms 10] }

/-! ## The two loops -/

/-- One iteration of the `while (true)` loop of `SparklingThread`, for the sensor reading
`sparking` returned by `gpio_get(PIN_SENSE_SPARKING)`. -/
def SparklingThread_iteration (sparking : Bool) (s : State) : State :=
  let s1 : State :=
    if sparking ≠ s.wasSparking then
      if s.uiState = UI_POSTBURN ∧ sparking = false then { s with uiState := UI_JOG }
      else if sparking then { s with uiState := UI_PREBURN }
      else { s with uiState := UI_JOG }
    else s
  let s2 : State := { s1 with wasSparking := sparking }
  if s2.uiState = UI_JOG then
    if s2.shouldMove then
      { s2 with
        trace := s2.trace ++
          [ Effect.gpio_put PIN_STEPPER_DIR s2.moveDirectionDown,
            Effect.gpio_put PIN_STEPPER_STEP true,
            Effect.sleep_us 10,
            Effect.gpio_put PIN_STEPPER_STEP false,
            Effect.sleep_us 200 ] }
    else { s2 with trace := s2.trace ++ [Effect.sleep_ms 5] }
  else if s2.uiState = UI_BURN then { s2 with trace := s2.trace ++ [Effect.sleep_ms 10] }
  else { s2 with trace := s2.trace ++ [Effect.sleep_ms 10] }

/-- One iteration of the `while (true)` loop of `main`: the dispatch on `uiState` and the
closing `sleep_ms(20)`.  The call of `MaybeSaveSettings` in the loop body is commented
out in the source, so the iteration does not make it. -/
def main_iteration (tUp tDown tSave : Nat) (s : State) : State :=
  let s1 : State :=
    match s.uiState with
    | UI_JOG => handle_ui_jog s
    | UI_DEPTH0 => handle_ui_depth tUp tDown tSave s
    | UI_DEPTH1 => handle_ui_depth tUp tDown tSave s
    | UI_DEPTH2 => handle_ui_depth tUp tDown tSave s
    | UI_DEPTH3 => handle_ui_depth tUp tDown tSave s
    | UI_TON => handle_ui_ton tUp tDown tSave s
    | UI_TOFF => handle_ui_toff tUp tDown tSave s
    | UI_PREBURN => handle_ui_preburn tUp tDown s
    | UI_BURN => handle_ui_burn s
    | UI_POSTBURN => handle_ui_postburn s
    | UI_STATE_COUNT => s
  { s1 with trace := s1.trace ++ [Effect.sleep_ms 20] }

/-- The state in which both loops start: the static initialisers of the globals, then
`LoadSettings()` as called at the top of `main`, on a flash holding `flash`. -/
def boot (flash : Nat → settings_t) : State :=
  LoadSettings
    { uiState := UI_JOG
      rezeroOnBurn := true
      moveDirectionDown := true
      shouldMove := false
      nextSaveTimeMS := 0
      settings := defaultSettings
      upPressed := false
      downPressed := false
      upRepeatTime := 0
      downRepeatTime := 0
      wasSparking := false
      flash := flash
      trace := [] }

/-- What can happen next in the running program: the button library delivers a state
change, the main loop runs one iteration, or `SparklingThread` runs one iteration. -/
inductive Event
  | button (b : button_t) (time_us_64 : Nat)
  | ui (tUp tDown tSave : Nat)
  | sensor (sparking : Bool)
  deriving DecidableEq, Repr

/-- The effect of one event, each taken as one atomic step. -/
def step (e : Event) (s : State) : State :=
  match e with
  | Event.button b t => OnButtonStateChange b t s
  | Event.ui tUp tDown tSave => main_iteration tUp tDown tSave s
  | Event.sensor sparking => SparklingThread_iteration sparking s

/-- The state after a sequence of events, oldest first. -/
def run : List Event → State → State
  | [], s => s
  | e :: es, s => run es (step e s)

/-- A flash whose settings area is erased. -/
def erasedFlash : Nat → settings_t := fun _ => erasedRecord

/-! ## Commit sequences -/

/-- The operator-editable part of `settings_t`. -/
structure Params where
  ton_us : Nat
  toff_us : Nat
  depthDigits0 : Nat
  depthDigits1 : Nat
  depthDigits2 : Nat
  depthDigits3 : Nat
  deriving DecidableEq, Repr

/-- The record that `SaveSettings` serialises for parameters `p` and write counter `n`. -/
def Params.record (p : Params) (n : Nat) : settings_t :=
  { magic := SETTINGS_MAGIC, ton_us := p.ton_us, toff_us := p.toff_us,
    depthDigits0 := p.depthDigits0, depthDigits1 := p.depthDigits1,
    depthDigits2 := p.depthDigits2, depthDigits3 := p.depthDigits3, numWrites := n }

/-- The parameters held in a `settings_t`. -/
def settings_t.params (st : settings_t) : Params :=
  { ton_us := st.ton_us, toff_us := st.toff_us,
    depthDigits0 := st.depthDigits0, depthDigits1 := st.depthDigits1,
    depthDigits2 := st.depthDigits2, depthDigits3 := st.depthDigits3 }

/-- Overwrite the parameters in RAM with `p`, leaving marker and write counter alone. -/
def setParams (p : Params) (s : State) : State :=
  { s with
    settings :=
      { s.settings with
        ton_us := p.ton_us, toff_us := p.toff_us,
        depthDigits0 := p.depthDigits0, depthDigits1 := p.depthDigits1,
        depthDigits2 := p.depthDigits2, depthDigits3 := p.depthDigits3 } }

/-- One commit: the parameters in RAM take the values `p`, then `SaveSettings` runs. -/
def commit (s : State) (p : Params) : State := SaveSettings (setParams p s)

/-- Successive commits, oldest first. -/
def commits (ps : List Params) (s : State) : State := ps.foldl commit s

/-- The offsets passed to `flash_range_erase` in a trace, in order. -/
def erasedOffsets : List Effect → List Nat
  | [] => []
  | Effect.flash_range_erase offset _ :: es => offset :: erasedOffsets es
  | _ :: es => erasedOffsets es

/-- The offsets passed to `flash_range_program` in a trace, in order. -/
def programmedOffsets : List Effect → List Nat
  | [] => []
  | Effect.flash_range_program offset _ _ :: es => offset :: programmedOffsets es
  | _ :: es => programmedOffsets es

/-- The slot that `SaveSettings` targets when the write counter is `n` on entry. -/
def targetSlot (n : Nat) : Nat :=
  (n + 1) % U32 / SETTINGS_ROTATE_EVERY % SETTINGS_MAX_BLOCKS

/-- The parameters of the static initialiser of `settings`. -/
def defaultParams : Params :=
  { ton_us := 50, toff_us := 200,
    depthDigits0 := 0, depthDigits1 := 0, depthDigits2 := 0, depthDigits3 := 0 }

/-! ## Navigation, edit and tick sequences -/

/-- The button events on which `OnButtonStateChange` navigates: the Next or the Prev button
reporting `state == false`. -/
inductive NavEvent
  | next (time_us_64 : Nat)
  | prev (time_us_64 : Nat)
  deriving DecidableEq, Repr

/-- The event delivered to the button callback. -/
def NavEvent.toEvent : NavEvent → Event
  | NavEvent.next t => Event.button { pin := PIN_BUTTON_NEXT, state := false } t
  | NavEvent.prev t => Event.button { pin := PIN_BUTTON_PREV, state := false } t

/-- Whether the event is a Next event. -/
def NavEvent.isNext : NavEvent → Bool
  | NavEvent.next _ => true
  | NavEvent.prev _ => false

/-- Whether the event is a Prev event. -/
def NavEvent.isPrev : NavEvent → Bool
  | NavEvent.next _ => false
  | NavEvent.prev _ => true

/-- The on duration `t` is within `[TON_MIN, TON_MAX]` and a whole number of steps above
`TON_MIN`. -/
def tonValid (t : Nat) : Prop := TON_MIN ≤ t ∧ t ≤ TON_MAX ∧ (t - TON_MIN) % TON_STEP = 0

instance (t : Nat) : Decidable (tonValid t) := by
  unfold tonValid; infer_instance

/-- The off duration `t` is within `[TOFF_MIN, TOFF_MAX]` and a whole number of steps above
`TOFF_MIN`. -/
def toffValid (t : Nat) : Prop := TOFF_MIN ≤ t ∧ t ≤ TOFF_MAX ∧ (t - TOFF_MIN) % TOFF_STEP = 0

instance (t : Nat) : Decidable (toffValid t) := by
  unfold toffValid; infer_instance

/-- Both durations are within their ranges and on their step grids. -/
def timingValid (st : settings_t) : Prop := tonValid st.ton_us ∧ toffValid st.toff_us

instance (st : settings_t) : Decidable (timingValid st) := by
  unfold timingValid; infer_instance

/-- A call of one of the two duration handlers, with the clock readings it takes. -/
inductive EditStep
  | ton (tUp tDown tSave : Nat)
  | toff (tUp tDown tSave : Nat)
  deriving DecidableEq, Repr

/-- The handler call an `EditStep` stands for. -/
def EditStep.apply : EditStep → State → State
  | EditStep.ton tUp tDown tSave, s => handle_ui_ton tUp tDown tSave s
  | EditStep.toff tUp tDown tSave, s => handle_ui_toff tUp tDown tSave s

/-- Successive handler calls, oldest first. -/
def runEdits : List EditStep → State → State
  | [], s => s
  | e :: es, s => runEdits es (e.apply s)

/-- All four depth digits are decimal digits. -/
def digitsValid (st : settings_t) : Prop :=
  st.depthDigits0 ≤ 9 ∧ st.depthDigits1 ≤ 9 ∧ st.depthDigits2 ≤ 9 ∧ st.depthDigits3 ≤ 9

instance (st : settings_t) : Decidable (digitsValid st) := by
  unfold digitsValid; infer_instance

/-! ## Concrete event sequences -/

/-- In `UI_JOG`: Up is pressed, the main loop runs once, and Next is operated. -/
def jogThenNext : List Event :=
  [ Event.button { pin := PIN_BUTTON_UP, state := true } 1000000,
    Event.ui 1000000 1000000 1000000,
    Event.button { pin := PIN_BUTTON_NEXT, state := false } 1100000 ]

/-- Up is pressed, sparking starts, the Up tick confirms the burn, Up is released while
the mode is `UI_BURN`, sparking stops, and the main loop runs once. -/
def releaseDuringBurn : List Event :=
  [ Event.button { pin := PIN_BUTTON_UP, state := true } 1000000,
    Event.sensor true,
    Event.ui 1000000 1000000 1000000,
    Event.button { pin := PIN_BUTTON_UP, state := false } 2000000,
    Event.sensor false,
    Event.ui 3000000 3000000 3000000 ]

/-- Five Next events lead from `UI_JOG` to `UI_TON`; Up is pressed at 1000 ms, four
main-loop iterations 150 ms apart each take an Up tick, and Up is released. -/
def fourUpTicksInTon : List Event :=
  [ Event.button { pin := PIN_BUTTON_NEXT, state := false } 100000,
    Event.button { pin := PIN_BUTTON_NEXT, state := false } 200000,
    Event.button { pin := PIN_BUTTON_NEXT, state := false } 300000,
    Event.button { pin := PIN_BUTTON_NEXT, state := false } 400000,
    Event.button { pin := PIN_BUTTON_NEXT, state := false } 500000,
    Event.button { pin := PIN_BUTTON_UP, state := true } 1000000,
    Event.ui 1000000 1000000 1000000,
    Event.ui 1150000 1150000 1150000,
    Event.ui 1300000 1300000 1300000,
    Event.ui 1450000 1450000 1450000,
    Event.button { pin := PIN_BUTTON_UP, state := false } 1500000 ]

/-- A state in mode `m` whose last sensor sample was `wasSparking`, otherwise as at boot
on an erased flash. -/
def stateInMode (m : ui_state_t) (wasSparking : Bool) : State :=
  { boot erasedFlash with uiState := m, wasSparking := wasSparking }

/-! ## Debounce protocol -/

/-- A call of one of the two functions of the debounced save, with its clock reading. -/
inductive SaveOp
  | schedule (time_us_64 : Nat)
  | tick (time_us_64 : Nat)
  deriving DecidableEq, Repr

/-- The time of the call in milliseconds, as the called function computes it. -/
def SaveOp.ms : SaveOp → Nat
  | SaveOp.schedule t => now_ms t
  | SaveOp.tick t => now_ms t

/-- The function call a `SaveOp` stands for: `ScheduleSaveSettings` or
`MaybeSaveSettings`. -/
def SaveOp.apply : SaveOp → State → State
  | SaveOp.schedule t, s => ScheduleSaveSettings t s
  | SaveOp.tick t, s => MaybeSaveSettings t s

/-- Successive calls, oldest first. -/
def runSaveOps : List SaveOp → State → State
  | [], s => s
  | op :: ops, s => runSaveOps ops (op.apply s)

/-- The millisecond times of the `ScheduleSaveSettings` calls, in order. -/
def scheduleTimes : List SaveOp → List Nat
  | [] => []
  | SaveOp.schedule t :: ops => now_ms t :: scheduleTimes ops
  | SaveOp.tick _ :: ops => scheduleTimes ops

/-- The millisecond times of the `MaybeSaveSettings` calls, in order. -/
def tickTimes : List SaveOp → List Nat
  | [] => []
  | SaveOp.schedule _ :: ops => tickTimes ops
  | SaveOp.tick t :: ops => now_ms t :: tickTimes ops

/-- The millisecond time of the last `ScheduleSaveSettings` call, or `d` if there is
none. -/
def lastScheduleTime : List SaveOp → Nat → Nat
  | [], d => d
  | SaveOp.schedule t :: ops, _ => lastScheduleTime ops (now_ms t)
  | SaveOp.tick _ :: ops, d => lastScheduleTime ops d

/-- The millisecond times of the `MaybeSaveSettings` calls that performed a
`SaveSettings`, recognised by the flash program the call added to the trace. -/
def saveTimes : List SaveOp → State → List Nat
  | [], _ => []
  | op :: ops, s =>
    if (programmedOffsets (op.apply s).trace).length ≠ (programmedOffsets s.trace).length then
      op.ms :: saveTimes ops (op.apply s)
    else saveTimes ops (op.apply s)

/-- Two `ScheduleSaveSettings` calls 2 s apart (at 1000 ms and 3000 ms) with
`MaybeSaveSettings` ticks at 2000, 7000, 8500 and 9000 ms. -/
def debounceExample : List SaveOp :=
  [ SaveOp.schedule 1000000, SaveOp.tick 2000000, SaveOp.schedule 3000000,
    SaveOp.tick 7000000, SaveOp.tick 8500000, SaveOp.tick 9000000 ]

/-! ## Effect windows and step pulses -/

/-- Whether every flash erase and program in a list of effects happens while interrupts
are disabled and the other core is locked out; `irqOff` and `locked` say whether that is
so when the list starts. -/
def flashOpsGuarded (irqOff locked : Bool) : List Effect → Bool
  | [] => true
  | Effect.save_and_disable_interrupts :: es => flashOpsGuarded true locked es
  | Effect.restore_interrupts :: es => flashOpsGuarded false locked es
  | Effect.multicore_lockout_start_blocking :: es => flashOpsGuarded irqOff true es
  | Effect.multicore_lockout_end_blocking :: es => flashOpsGuarded irqOff false es
  | Effect.flash_range_erase _ _ :: es => irqOff && locked && flashOpsGuarded irqOff locked es
  | Effect.flash_range_program _ _ _ :: es =>
    irqOff && locked && flashOpsGuarded irqOff locked es
  | _ :: es => flashOpsGuarded irqOff locked es

/-- The effects of one step pulse in the direction `down`, in program order. -/
def stepPulse (down : Bool) : List Effect :=
  [ Effect.gpio_put PIN_STEPPER_DIR down,
    Effect.gpio_put PIN_STEPPER_STEP true,
    Effect.sleep_us 10,
    Effect.gpio_put PIN_STEPPER_STEP false,
    Effect.sleep_us 200 ]

/-- Whether a list of effects writes any GPIO pin. -/
def writesGpio : List Effect → Bool
  | [] => false
  | Effect.gpio_put _ _ :: _ => true
  | _ :: es => writesGpio es

/-! ## Polling the repeat ticks -/

/-- Successive `TryUseUpButton` calls at the clock readings `ts`: the millisecond times of
the calls that returned true. -/
def pollUp : List Nat → State → List Nat
  | [], _ => []
  | t :: ts, s =>
    if (TryUseUpButton t s).1 = true then now_ms t :: pollUp ts (TryUseUpButton t s).2
    else pollUp ts (TryUseUpButton t s).2

/-- Successive `TryUseDownButton` calls at the clock readings `ts`: the millisecond times
of the calls that returned true. -/
def pollDown : List Nat → State → List Nat
  | [], _ => []
  | t :: ts, s =>
    if (TryUseDownButton t s).1 = true then now_ms t :: pollDown ts (TryUseDownButton t s).2
    else pollDown ts (TryUseDownButton t s).2

/-- Up is pressed at 1000 ms, sparking starts and the Up tick at 1000 ms confirms the
burn, so that the mode is `UI_BURN` with the Up button still held. -/
def holdUpIntoBurn : List Event :=
  [ Event.button { pin := PIN_BUTTON_UP, state := true } 1000000,
    Event.sensor true,
    Event.ui 1000000 1000000 1000000 ]

/-! ## The race on `uiState`

`uiState` is a `volatile` global written by both cores without a lock.  To follow a
button event that races with a sensor edge, the Next/Prev path through
`OnButtonStateChange` is cut at its accesses to `uiState` (each access is one load or one
store of the variable, and the accesses of the two cores are taken to happen one after
the other), and the store that `SparklingThread` makes on a sensor edge is placed between
them. -/

/-- Program points of the Next/Prev path through `OnButtonStateChange`: before the load for
`uiState == UI_BURN`, before the load for `uiState == UI_POSTBURN`, before the load for
`uiState == UI_PREBURN`, before the load in `(uiState + d) % UI_STATE_COUNT`, before the
store of that expression computed from the loaded value, and after the return. -/
inductive NavPc
  | atBurnCheck
  | atPostburnCheck
  | atPreburnCheck
  | atLoad
  | atStore (loaded : ui_state_t)
  | finished
  deriving DecidableEq, Repr

/-- The summand `d` of the navigation: 1 for Next, `UI_STATE_COUNT - 1` for Prev. -/
def navDelta (next : Bool) : Nat := if next then 1 else UI_STATE_COUNT.toNat - 1

/-- The button that navigates: Next or Prev. -/
def navPin (next : Bool) : Nat := if next then PIN_BUTTON_NEXT else PIN_BUTTON_PREV

/-- One access to `uiState` on the Next/Prev path, from program point and memory content to
the next program point and memory content. -/
def navMicroStep (d : Nat) : NavPc × ui_state_t → NavPc × ui_state_t
  | (NavPc.atBurnCheck, mem) =>
    if mem = UI_BURN then (NavPc.finished, mem) else (NavPc.atPostburnCheck, mem)
  | (NavPc.atPostburnCheck, mem) =>
    if mem = UI_POSTBURN then (NavPc.finished, mem) else (NavPc.atPreburnCheck, mem)
  | (NavPc.atPreburnCheck, mem) =>
    if mem = UI_PREBURN then (NavPc.finished, mem) else (NavPc.atLoad, mem)
  | (NavPc.atLoad, mem) => (NavPc.atStore mem, mem)
  | (NavPc.atStore loaded, _) =>
    (NavPc.finished, ui_state_t.cast ((loaded.toNat + d) % UI_STATE_COUNT.toNat))
  | (NavPc.finished, mem) => (NavPc.finished, mem)

/-- The first `k` accesses of the Next/Prev path. -/
def navMicroSteps (d : Nat) : Nat → NavPc × ui_state_t → NavPc × ui_state_t
  | 0, x => x
  | k + 1, x => navMicroSteps d k (navMicroStep d x)

/-- The value `SparklingThread` stores into `uiState` on a sensor edge with the new sample
`sparking`. -/
def sensorStore (sparking : Bool) : ui_state_t := if sparking then UI_PREBURN else UI_JOG

/-- The final mode when the sensor store falls after the first `k` accesses of the
Next/Prev path started with `uiState = m`, and the path then runs to its end (it makes at
most five accesses). -/
def raceFinalMode (d : Nat) (sparking : Bool) (k : Nat) (m : ui_state_t) : ui_state_t :=
  (navMicroSteps d 5 ((navMicroSteps d k (NavPc.atBurnCheck, m)).1, sensorStore sparking)).2

/-! ## Facts about the settings store -/

theorem slot_lt (n : Nat) : n / SETTINGS_ROTATE_EVERY % SETTINGS_MAX_BLOCKS < 10 := by
  simp only [SETTINGS_ROTATE_EVERY, SETTINGS_MAX_BLOCKS]; omega

theorem SaveSettings_offset (n : Nat) :
    (FLASH_TARGET_OFFSET +
        (n / SETTINGS_ROTATE_EVERY % SETTINGS_MAX_BLOCKS) * SETTINGS_BLOCK_SIZE) % U32
      = slotOffset (n / SETTINGS_ROTATE_EVERY % SETTINGS_MAX_BLOCKS) := by
  have h := slot_lt n
  simp only [slotOffset, FLASH_TARGET_OFFSET, SETTINGS_BLOCK_SIZE, U32] at *
  omega

theorem slotOffset_inj {i j : Nat} (h : slotOffset i = slotOffset j) : i = j := by
  simp only [slotOffset, FLASH_TARGET_OFFSET, SETTINGS_BLOCK_SIZE] at h
  omega

theorem slotOffset_not_in_sector {i j : Nat} (h : i ≠ j) :
    ¬ (slotOffset i ≤ slotOffset j ∧ slotOffset j < slotOffset i + SETTINGS_BLOCK_SIZE) := by
  simp only [slotOffset, FLASH_TARGET_OFFSET, SETTINGS_BLOCK_SIZE]
  omega

theorem SaveSettings_settings (s : State) :
    (SaveSettings s).settings =
      { s.settings with magic := SETTINGS_MAGIC, numWrites := (s.settings.numWrites + 1) % U32 } :=
  rfl

theorem SaveSettings_flash_target (s : State) :
    (SaveSettings s).flash (slotOffset (targetSlot s.settings.numWrites))
      = (SaveSettings s).settings := by
  simp only [SaveSettings, SaveSettings_offset, flashProgram, targetSlot, if_true]

theorem SaveSettings_flash_other (s : State) (j : Nat) (h : j ≠ targetSlot s.settings.numWrites) :
    (SaveSettings s).flash (slotOffset j) = s.flash (slotOffset j) := by
  have h1 : slotOffset j ≠ slotOffset (targetSlot s.settings.numWrites) :=
    fun e => h (slotOffset_inj e)
  have h2 := slotOffset_not_in_sector (Ne.symm h)
  simp only [targetSlot] at h1 h2
  simp only [SaveSettings, SaveSettings_offset, flashProgram, flashErase, if_neg h1, if_neg h2]

theorem SaveSettings_trace (s : State) :
    (SaveSettings s).trace = s.trace ++
      [ Effect.save_and_disable_interrupts,
        Effect.multicore_lockout_start_blocking,
        Effect.flash_range_erase (slotOffset (targetSlot s.settings.numWrites)) SETTINGS_BLOCK_SIZE,
        Effect.flash_range_program (slotOffset (targetSlot s.settings.numWrites))
          (SaveSettings s).settings SETTINGS_BLOCK_SIZE,
        Effect.multicore_lockout_end_blocking,
        Effect.restore_interrupts ] := by
  simp only [SaveSettings, SaveSettings_offset, targetSlot]

theorem commits_append (ps : List Params) (p : Params) (s : State) :
    commits (ps ++ [p]) s = commit (commits ps s) p := by
  simp [commits, List.foldl_append]

theorem commit_numWrites (s : State) (p : Params) :
    (commit s p).settings.numWrites = (s.settings.numWrites + 1) % U32 := rfl

theorem commit_settings (s : State) (p : Params) :
    (commit s p).settings = p.record ((s.settings.numWrites + 1) % U32) := rfl

theorem commits_numWrites (ps : List Params) (s : State) :
    (commits ps s).settings.numWrites = (s.settings.numWrites % U32 + ps.length) % U32
      ∨ (ps = [] ∧ (commits ps s).settings.numWrites = s.settings.numWrites) := by
  induction ps using List.reverseRecOn with
  | nil => right; exact ⟨rfl, rfl⟩
  | append_singleton qs p ih =>
    left
    rw [commits_append, commit_numWrites]
    rcases ih with h | ⟨h1, h2⟩
    · rw [h]; simp only [List.length_append, List.length_singleton, U32]; omega
    · rw [h2, h1]; simp only [List.length_append, List.length_singleton, List.length_nil, U32]
      omega

theorem commits_numWrites_of_lt (ps : List Params) (s : State)
    (h0 : s.settings.numWrites = 0) (hK : ps.length < U32) :
    (commits ps s).settings.numWrites = ps.length := by
  rcases commits_numWrites ps s with h | ⟨h1, h2⟩
  · rw [h, h0]; simp only [U32] at *; omega
  · rw [h2, h0, h1]; rfl

theorem LoadSettings_scan_offset (flash : Nat → settings_t) (n : Nat) (hn : n < 10) :
    LoadSettings_scan flash (n + 1) =
      if (flash (slotOffset n)).magic = SETTINGS_MAGIC then some (flash (slotOffset n))
      else LoadSettings_scan flash n := by
  have h : (FLASH_TARGET_OFFSET + n * SETTINGS_BLOCK_SIZE) % U32 = slotOffset n := by
    simp only [slotOffset, FLASH_TARGET_OFFSET, SETTINGS_BLOCK_SIZE, U32]; omega
  simp only [LoadSettings_scan, h]

/-- The scan returns the record of the highest-numbered slot with a matching marker. -/
theorem LoadSettings_scan_highest (flash : Nat → settings_t) (m : Nat)
    (hm : (flash (slotOffset m)).magic = SETTINGS_MAGIC) :
    ∀ n, m < n → n ≤ 10 →
      (∀ j, m < j → j < n → (flash (slotOffset j)).magic ≠ SETTINGS_MAGIC) →
      LoadSettings_scan flash n = some (flash (slotOffset m)) := by
  intro n
  induction n with
  | zero => intro h; omega
  | succ n ih =>
    intro hmn hn hinv
    rw [LoadSettings_scan_offset flash n (by omega)]
    by_cases hmn2 : m = n
    · subst hmn2; rw [if_pos hm]
    · rw [if_neg (hinv n (by omega) (by omega))]
      exact ih (by omega) (by omega) (fun j h1 h2 => hinv j h1 (by omega))

/-- Slots above the one written last are still invalid, and the slot written last holds
the record in RAM, as long as the rotation has not wrapped. -/
theorem commits_flash_before_wrap (s0 : State) (h0 : s0.settings.numWrites = 0)
    (hinv : ∀ j, j < 10 → (s0.flash (slotOffset j)).magic ≠ SETTINGS_MAGIC)
    (ps : List Params) :
    ps.length < SETTINGS_ROTATE_EVERY * SETTINGS_MAX_BLOCKS →
      (∀ j, ps.length / SETTINGS_ROTATE_EVERY < j → j < 10 →
        ((commits ps s0).flash (slotOffset j)).magic ≠ SETTINGS_MAGIC) ∧
      (ps ≠ [] →
        (commits ps s0).flash (slotOffset (ps.length / SETTINGS_ROTATE_EVERY))
          = (commits ps s0).settings) := by
  induction ps using List.reverseRecOn with
  | nil => intro _; exact ⟨fun j _ hj => hinv j hj, fun h => absurd rfl h⟩
  | append_singleton qs p ih =>
    intro hK
    simp only [List.length_append, List.length_singleton] at hK ⊢
    have hK2 : qs.length + 1 < 50000 := hK
    have hq : qs.length < SETTINGS_ROTATE_EVERY * SETTINGS_MAX_BLOCKS :=
      show qs.length < 50000 by omega
    have hn : (commits qs s0).settings.numWrites = qs.length :=
      commits_numWrites_of_lt qs s0 h0 (show qs.length < 2 ^ 32 by omega)
    have hn2 : (setParams p (commits qs s0)).settings.numWrites = qs.length := hn
    have ht : targetSlot qs.length = (qs.length + 1) / SETTINGS_ROTATE_EVERY := by
      simp only [targetSlot, U32, SETTINGS_ROTATE_EVERY, SETTINGS_MAX_BLOCKS]
      omega
    rw [commits_append]
    constructor
    · intro j hj1 hj2
      have hne : j ≠ targetSlot (setParams p (commits qs s0)).settings.numWrites := by
        rw [hn2, ht]; omega
      rw [commit, SaveSettings_flash_other _ j hne]
      refine (ih hq).1 j ?_ hj2
      simp only [SETTINGS_ROTATE_EVERY] at *
      omega
    · intro _
      have h := SaveSettings_flash_target (setParams p (commits qs s0))
      rw [hn2, ht] at h
      exact h

/-- Before the rotation wraps (fewer than `SETTINGS_ROTATE_EVERY * SETTINGS_MAX_BLOCKS`
commits from write counter 0 on a flash with no valid slot), `LoadSettings` restores
the parameters and the write counter of the last commit. -/
theorem LoadSettings_after_commits_before_wrap (s0 : State) (h0 : s0.settings.numWrites = 0)
    (hinv : ∀ j, j < 10 → (s0.flash (slotOffset j)).magic ≠ SETTINGS_MAGIC)
    (ps : List Params) (p : Params)
    (hK : (ps ++ [p]).length < SETTINGS_ROTATE_EVERY * SETTINGS_MAX_BLOCKS) :
    (LoadSettings (commits (ps ++ [p]) s0)).settings = p.record (ps ++ [p]).length := by
  have hne : ps ++ [p] ≠ [] := by simp
  obtain ⟨h1, h2⟩ := commits_flash_before_wrap s0 h0 hinv (ps ++ [p]) hK
  have h2 := h2 hne
  have hK2 : (ps ++ [p]).length < 50000 := hK
  have hlen : (ps ++ [p]).length = ps.length + 1 := by simp
  have hset : (commits (ps ++ [p]) s0).settings = p.record (ps ++ [p]).length := by
    rw [commits_append, commit_settings,
      commits_numWrites_of_lt ps s0 h0 (show ps.length < 2 ^ 32 by omega), hlen]
    rw [Nat.mod_eq_of_lt (show ps.length + 1 < 2 ^ 32 by omega)]
  have hm : ((commits (ps ++ [p]) s0).flash
      (slotOffset ((ps ++ [p]).length / SETTINGS_ROTATE_EVERY))).magic = SETTINGS_MAGIC := by
    rw [h2, hset]; simp [Params.record]
  have hscan := LoadSettings_scan_highest (commits (ps ++ [p]) s0).flash
    ((ps ++ [p]).length / SETTINGS_ROTATE_EVERY) hm 10
    (by simp only [SETTINGS_ROTATE_EVERY]; omega) (le_refl _)
    (fun j hj1 hj2 => h1 j hj1 hj2)
  simp only [LoadSettings, SETTINGS_MAX_BLOCKS, hscan]
  rw [h2, hset]

/-- Two commits that straddle the wrap of the rotation: the first goes to slot 9, the second
to slot 0, and `LoadSettings` then restores the first. -/
theorem LoadSettings_after_wrap (s : State) (p q : Params)
    (hn : s.settings.numWrites = 49998) :
    (commit (commit s p) q).settings = q.record 50000 ∧
    (LoadSettings (commit (commit s p) q)).settings = p.record 49999 := by
  have hp : (commit s p).settings = p.record 49999 := by
    rw [commit_settings, hn]; norm_num [U32]
  have hq : (commit (commit s p) q).settings = q.record 50000 := by
    rw [commit_settings, hp]; norm_num [Params.record, U32]
  refine ⟨hq, ?_⟩
  have ht1 : targetSlot (setParams p s).settings.numWrites = 9 := by
    show targetSlot s.settings.numWrites = 9
    rw [hn]; norm_num [targetSlot, U32, SETTINGS_ROTATE_EVERY, SETTINGS_MAX_BLOCKS]
  have ht2 : targetSlot (setParams q (commit s p)).settings.numWrites = 0 := by
    show targetSlot (commit s p).settings.numWrites = 0
    rw [hp]
    norm_num [targetSlot, Params.record, U32, SETTINGS_ROTATE_EVERY, SETTINGS_MAX_BLOCKS]
  have hf9 : (commit (commit s p) q).flash (slotOffset 9) = p.record 49999 := by
    show (SaveSettings (setParams q (commit s p))).flash (slotOffset 9) = _
    rw [SaveSettings_flash_other _ 9 (by rw [ht2]; omega)]
    show (SaveSettings (setParams p s)).flash (slotOffset 9) = _
    have h := SaveSettings_flash_target (setParams p s)
    rw [ht1] at h
    rw [h]; exact hp
  have hscan : LoadSettings_scan (commit (commit s p) q).flash 10 = some (p.record 49999) := by
    rw [LoadSettings_scan_offset _ 9 (by omega), hf9]; simp [Params.record]
  simp only [LoadSettings, SETTINGS_MAX_BLOCKS, hscan]

theorem LoadSettings_scan_none (flash : Nat → settings_t) :
    ∀ n, n ≤ 10 → (∀ j, j < n → (flash (slotOffset j)).magic ≠ SETTINGS_MAGIC) →
      LoadSettings_scan flash n = none := by
  intro n
  induction n with
  | zero => intro _ _; rfl
  | succ n ih =>
    intro hn hinv
    rw [LoadSettings_scan_offset flash n (by omega), if_neg (hinv n (by omega))]
    exact ih (by omega) (fun j hj => hinv j (by omega))

theorem erasedRecord_magic : erasedRecord.magic ≠ SETTINGS_MAGIC := by
  norm_num [erasedRecord, U32, SETTINGS_MAGIC]

theorem boot_settings_of_invalid (flash : Nat → settings_t)
    (hinv : ∀ j, j < 10 → (flash (slotOffset j)).magic ≠ SETTINGS_MAGIC) :
    (boot flash).settings = defaultSettings := by
  have h := LoadSettings_scan_none flash 10 (le_refl _) hinv
  simp only [boot, LoadSettings, SETTINGS_MAX_BLOCKS, h]
  rfl

theorem boot_erasedFlash_settings : (boot erasedFlash).settings = defaultSettings :=
  boot_settings_of_invalid erasedFlash (fun _ _ => erasedRecord_magic)

theorem erasedOffsets_append (a b : List Effect) :
    erasedOffsets (a ++ b) = erasedOffsets a ++ erasedOffsets b := by
  induction a with
  | nil => rfl
  | cons e es ih => cases e <;> simp [erasedOffsets, ih]

theorem programmedOffsets_append (a b : List Effect) :
    programmedOffsets (a ++ b) = programmedOffsets a ++ programmedOffsets b := by
  induction a with
  | nil => rfl
  | cons e es ih => cases e <;> simp [programmedOffsets, ih]

theorem commit_trace (s : State) (p : Params) :
    (commit s p).trace = s.trace ++
      [ Effect.save_and_disable_interrupts,
        Effect.multicore_lockout_start_blocking,
        Effect.flash_range_erase (slotOffset (targetSlot s.settings.numWrites)) SETTINGS_BLOCK_SIZE,
        Effect.flash_range_program (slotOffset (targetSlot s.settings.numWrites))
          (p.record ((s.settings.numWrites + 1) % U32)) SETTINGS_BLOCK_SIZE,
        Effect.multicore_lockout_end_blocking,
        Effect.restore_interrupts ] :=
  SaveSettings_trace (setParams p s)

/-- The slots erased and programmed by `K < 2^32` commits from write counter 0 are, in
order, `(k / SETTINGS_ROTATE_EVERY) % SETTINGS_MAX_BLOCKS` for `k = 1, ..., K`. -/
theorem commits_offsets (s0 : State) (h0 : s0.settings.numWrites = 0) (ps : List Params) :
    ps.length < U32 →
      erasedOffsets (commits ps s0).trace = erasedOffsets s0.trace ++
        (List.range ps.length).map
          (fun i => slotOffset ((i + 1) / SETTINGS_ROTATE_EVERY % SETTINGS_MAX_BLOCKS)) ∧
      programmedOffsets (commits ps s0).trace = programmedOffsets s0.trace ++
        (List.range ps.length).map
          (fun i => slotOffset ((i + 1) / SETTINGS_ROTATE_EVERY % SETTINGS_MAX_BLOCKS)) := by
  induction ps using List.reverseRecOn with
  | nil => intro _; simp [commits]
  | append_singleton qs p ih =>
    intro hK
    simp only [List.length_append, List.length_singleton] at hK ⊢
    have hK2 : qs.length + 1 < 2 ^ 32 := hK
    have hn : (commits qs s0).settings.numWrites = qs.length :=
      commits_numWrites_of_lt qs s0 h0 (show qs.length < 2 ^ 32 by omega)
    have ht : targetSlot qs.length
        = (qs.length + 1) / SETTINGS_ROTATE_EVERY % SETTINGS_MAX_BLOCKS := by
      simp only [targetSlot, U32]
      rw [Nat.mod_eq_of_lt hK2]
    obtain ⟨ih1, ih2⟩ := ih (show qs.length < 2 ^ 32 by omega)
    rw [commits_append, commit_trace, hn, ht, erasedOffsets_append, programmedOffsets_append,
      ih1, ih2, List.range_succ, List.map_append]
    simp [erasedOffsets, programmedOffsets]

/-! ## Claims about the settings store -/

/-- C1 (the code at the failing input).  On an erased flash and from write counter 0,
commit the defaults 49999 times and then once more with `ton_us = 90`.  The 50000th
commit goes to slot 0 with write counter 50000, but `LoadSettings` scans from slot 9
downwards and restores the record of the 49999th commit in slot 9: `ton_us = 50`,
write counter 49999. -/
theorem C1_LoadSettings_stale_after_rotation_wraps :
    (List.replicate 49999 defaultParams ++ [{ defaultParams with ton_us := 90 }]).length
        = SETTINGS_ROTATE_EVERY * SETTINGS_MAX_BLOCKS ∧
    (commits (List.replicate 49999 defaultParams ++ [{ defaultParams with ton_us := 90 }])
        (boot erasedFlash)).settings
      = Params.record { defaultParams with ton_us := 90 } 50000 ∧
    (LoadSettings
        (commits (List.replicate 49999 defaultParams ++ [{ defaultParams with ton_us := 90 }])
          (boot erasedFlash))).settings
      = Params.record defaultParams 49999 := by
  have h0 : (boot erasedFlash).settings.numWrites = 0 := by
    rw [boot_erasedFlash_settings]; rfl
  have hn : (commits (List.replicate 49998 defaultParams) (boot erasedFlash)).settings.numWrites
      = 49998 := by
    rw [commits_numWrites_of_lt _ _ h0 (by rw [List.length_replicate]; norm_num [U32]),
      List.length_replicate]
  have hsplit : List.replicate 49999 defaultParams
      = List.replicate 49998 defaultParams ++ [defaultParams] :=
    List.replicate_succ' (n := 49998) (a := defaultParams)
  have hw := LoadSettings_after_wrap _ defaultParams { defaultParams with ton_us := 90 } hn
  refine ⟨by rw [List.length_append, List.length_replicate]; rfl, ?_, ?_⟩
  · rw [commits_append, hsplit, commits_append]; exact hw.1
  · rw [commits_append, hsplit, commits_append]; exact hw.2

/-- C8 (the claim fails once the 32-bit write counter wraps).  After `2^32 - 1` commits
from write counter 0 the counter is `0xFFFFFFFF`; the next commit, number `2^32`,
increments it to 0 and erases and programs slot 0, whereas
`(2^32 / SETTINGS_ROTATE_EVERY) % SETTINGS_MAX_BLOCKS` is 3. -/
theorem C8_commit_after_counter_wrap :
    (commit (commits (List.replicate 4294967295 defaultParams) (boot erasedFlash))
        defaultParams).trace
      = (commits (List.replicate 4294967295 defaultParams) (boot erasedFlash)).trace ++
        [ Effect.save_and_disable_interrupts,
          Effect.multicore_lockout_start_blocking,
          Effect.flash_range_erase (slotOffset 0) SETTINGS_BLOCK_SIZE,
          Effect.flash_range_program (slotOffset 0) (defaultParams.record 0) SETTINGS_BLOCK_SIZE,
          Effect.multicore_lockout_end_blocking,
          Effect.restore_interrupts ] ∧
    (List.replicate 4294967295 defaultParams).length + 1 = 4294967296 ∧
    slotOffset (4294967296 / SETTINGS_ROTATE_EVERY % SETTINGS_MAX_BLOCKS) = slotOffset 3 ∧
    slotOffset 3 ≠ slotOffset 0 := by
  have h0 : (boot erasedFlash).settings.numWrites = 0 := by
    rw [boot_erasedFlash_settings]; rfl
  have hn : (commits (List.replicate 4294967295 defaultParams)
      (boot erasedFlash)).settings.numWrites = 4294967295 := by
    rw [commits_numWrites_of_lt _ _ h0 (by rw [List.length_replicate]; norm_num [U32]),
      List.length_replicate]
  refine ⟨?_, by rw [List.length_replicate], by norm_num [SETTINGS_ROTATE_EVERY,
    SETTINGS_MAX_BLOCKS], fun h => absurd (slotOffset_inj h) (by omega)⟩
  rw [commit_trace, hn]
  norm_num [targetSlot, U32, SETTINGS_ROTATE_EVERY, SETTINGS_MAX_BLOCKS]

/-- C8 (amended).  Starting from write counter 0, the k-th commit with `k < 2^32`
appends to the trace: interrupts off, lockout, erase of slot
`(k / SETTINGS_ROTATE_EVERY) % SETTINGS_MAX_BLOCKS`, program of the same slot with the
record carrying write counter `k`, lockout end, interrupts restored.  Hence, on a fresh
trace, fewer than 5000 commits erase and program only slot 0, and after exactly 50000
commits every one of the 10 slots has been erased and programmed at least once. -/
theorem C8_commit_slot_rotation (s0 : State) (h0 : s0.settings.numWrites = 0)
    (ps : List Params) (p : Params) (hk : ps.length + 1 < U32) :
    (commit (commits ps s0) p).trace = (commits ps s0).trace ++
      [ Effect.save_and_disable_interrupts,
        Effect.multicore_lockout_start_blocking,
        Effect.flash_range_erase
          (slotOffset ((ps.length + 1) / SETTINGS_ROTATE_EVERY % SETTINGS_MAX_BLOCKS))
          SETTINGS_BLOCK_SIZE,
        Effect.flash_range_program
          (slotOffset ((ps.length + 1) / SETTINGS_ROTATE_EVERY % SETTINGS_MAX_BLOCKS))
          (p.record (ps.length + 1)) SETTINGS_BLOCK_SIZE,
        Effect.multicore_lockout_end_blocking,
        Effect.restore_interrupts ] ∧
    (s0.trace = [] → ps.length < SETTINGS_ROTATE_EVERY →
      (∀ o ∈ erasedOffsets (commits ps s0).trace, o = slotOffset 0) ∧
      (∀ o ∈ programmedOffsets (commits ps s0).trace, o = slotOffset 0)) ∧
    (s0.trace = [] → ps.length = SETTINGS_ROTATE_EVERY * SETTINGS_MAX_BLOCKS →
      ∀ j, j < SETTINGS_MAX_BLOCKS →
        slotOffset j ∈ erasedOffsets (commits ps s0).trace ∧
        slotOffset j ∈ programmedOffsets (commits ps s0).trace) := by
  have hk2 : ps.length + 1 < 2 ^ 32 := hk
  have hn : (commits ps s0).settings.numWrites = ps.length :=
    commits_numWrites_of_lt ps s0 h0 (show ps.length < 2 ^ 32 by omega)
  obtain ⟨he, hp⟩ := commits_offsets s0 h0 ps (show ps.length < 2 ^ 32 by omega)
  refine ⟨?_, ?_, ?_⟩
  · rw [commit_trace, hn]
    simp only [targetSlot, U32]
    rw [Nat.mod_eq_of_lt hk2]
  · intro htr hlt
    have hlt2 : ps.length < 5000 := hlt
    rw [he, hp, htr]
    simp only [erasedOffsets, programmedOffsets, List.nil_append, List.mem_map, List.mem_range]
    have key : ∀ o, (∃ i, i < ps.length ∧
        slotOffset ((i + 1) / SETTINGS_ROTATE_EVERY % SETTINGS_MAX_BLOCKS) = o) →
        o = slotOffset 0 := by
      rintro o ⟨i, hi, rfl⟩
      have hi2 : i + 1 = ps.length ∨ i + 1 < ps.length := by omega
      have : (i + 1) / SETTINGS_ROTATE_EVERY % SETTINGS_MAX_BLOCKS = 0 := by
        simp only [SETTINGS_ROTATE_EVERY, SETTINGS_MAX_BLOCKS]; omega
      rw [this]
    exact ⟨key, key⟩
  · intro htr hlen j hj
    have hlen2 : ps.length = 50000 := hlen
    have hj2 : j < 10 := hj
    rw [he, hp, htr]
    simp only [erasedOffsets, programmedOffsets, List.nil_append, List.mem_map, List.mem_range]
    have key : ∃ i, i < ps.length ∧
        slotOffset ((i + 1) / SETTINGS_ROTATE_EVERY % SETTINGS_MAX_BLOCKS) = slotOffset j := by
      refine ⟨if j = 0 then 0 else 5000 * j - 1, ?_, ?_⟩
      · split <;> omega
      · congr 1
        simp only [SETTINGS_ROTATE_EVERY, SETTINGS_MAX_BLOCKS]
        split <;> omega
    exact ⟨key, key⟩

/-- C8 (amended), at concrete inputs: one and two commits from boot on an erased flash
go to slot 0, and after 50000 commits slot 7 has been programmed. -/
theorem C8_commit_slot_rotation_witness :
    ((boot erasedFlash).settings.numWrites = 0 ∧ [defaultParams].length + 1 < U32) ∧
    (commit (commits [defaultParams] (boot erasedFlash)) defaultParams).trace
      = (commits [defaultParams] (boot erasedFlash)).trace ++
        [ Effect.save_and_disable_interrupts,
          Effect.multicore_lockout_start_blocking,
          Effect.flash_range_erase (slotOffset 0) SETTINGS_BLOCK_SIZE,
          Effect.flash_range_program (slotOffset 0) (defaultParams.record 2) SETTINGS_BLOCK_SIZE,
          Effect.multicore_lockout_end_blocking,
          Effect.restore_interrupts ] ∧
    (∀ o ∈ programmedOffsets (commits [defaultParams] (boot erasedFlash)).trace,
      o = slotOffset 0) ∧
    slotOffset 7 ∈
      programmedOffsets (commits (List.replicate 50000 defaultParams) (boot erasedFlash)).trace :=
  have h0 : (boot erasedFlash).settings.numWrites = 0 := by
    rw [boot_erasedFlash_settings]; rfl
  have h1 := C8_commit_slot_rotation (boot erasedFlash) h0 [defaultParams] defaultParams
    (by norm_num [U32])
  have h2 := C8_commit_slot_rotation (boot erasedFlash) h0 (List.replicate 50000 defaultParams)
    defaultParams (by rw [List.length_replicate]; norm_num [U32])
  ⟨⟨h0, by norm_num [U32]⟩, h1.1, (h1.2.1 rfl (by norm_num [SETTINGS_ROTATE_EVERY])).2,
    (h2.2.2 rfl (by rw [List.length_replicate]; norm_num [SETTINGS_ROTATE_EVERY,
      SETTINGS_MAX_BLOCKS]) 7 (by norm_num [SETTINGS_MAX_BLOCKS])).2⟩

/-! ## Facts about the handlers -/

theorem TryUseUpButton_fires (t : Nat) (s : State) :
    (TryUseUpButton t s).1 = decide (s.upRepeatTime > 0 ∧ now_ms t > s.upRepeatTime) := by
  unfold TryUseUpButton; split <;> simp_all

theorem TryUseDownButton_fires (t : Nat) (s : State) :
    (TryUseDownButton t s).1 = decide (s.downRepeatTime > 0 ∧ now_ms t > s.downRepeatTime) := by
  unfold TryUseDownButton; split <;> simp_all

theorem handle_ui_ton_settings (tUp tDown tSave : Nat) (s : State) :
    (handle_ui_ton tUp tDown tSave s).settings =
      (let st1 : settings_t :=
        if (TryUseUpButton tUp s).1 = true ∧ s.settings.ton_us < TON_MAX then
          { s.settings with ton_us := (s.settings.ton_us + TON_STEP) % U16 }
        else s.settings
      if (TryUseDownButton tDown s).1 = true ∧ st1.ton_us > TON_MIN then
        { st1 with ton_us := (st1.ton_us + U16 - TON_STEP) % U16 }
      else st1) := by
  simp only [handle_ui_ton, TryUseUpButton, TryUseDownButton, ScheduleSaveSettings,
    apply_ite Prod.fst, apply_ite Prod.snd, apply_ite State.settings,
    apply_ite State.downRepeatTime, apply_ite settings_t.ton_us,
    ite_self, Bool.and_eq_true, decide_eq_true_eq]

theorem handle_ui_toff_settings (tUp tDown tSave : Nat) (s : State) :
    (handle_ui_toff tUp tDown tSave s).settings =
      (let st1 : settings_t :=
        if (TryUseUpButton tUp s).1 = true ∧ s.settings.toff_us < TOFF_MAX then
          { s.settings with toff_us := (s.settings.toff_us + TOFF_STEP) % U16 }
        else s.settings
      if (TryUseDownButton tDown s).1 = true ∧ st1.toff_us > TOFF_MIN then
        { st1 with toff_us := (st1.toff_us + U16 - TOFF_STEP) % U16 }
      else st1) := by
  simp only [handle_ui_toff, TryUseUpButton, TryUseDownButton, ScheduleSaveSettings,
    apply_ite Prod.fst, apply_ite Prod.snd, apply_ite State.settings,
    apply_ite State.downRepeatTime, apply_ite settings_t.toff_us,
    ite_self, Bool.and_eq_true, decide_eq_true_eq]

theorem ton_up_valid (t : Nat) (h : tonValid t) (hlt : t < TON_MAX) :
    tonValid ((t + TON_STEP) % U16) := by
  simp only [tonValid, TON_MIN, TON_MAX, TON_STEP, U16] at *
  rw [Nat.mod_eq_of_lt (by omega)]
  omega

theorem ton_down_valid (t : Nat) (h : tonValid t) (hgt : t > TON_MIN) :
    tonValid ((t + U16 - TON_STEP) % U16) := by
  simp only [tonValid, TON_MIN, TON_MAX, TON_STEP, U16] at *
  have e : (t + 2 ^ 16 - 10) % 2 ^ 16 = t - 10 := by omega
  rw [e]
  omega

theorem toff_up_valid (t : Nat) (h : toffValid t) (hlt : t < TOFF_MAX) :
    toffValid ((t + TOFF_STEP) % U16) := by
  simp only [toffValid, TOFF_MIN, TOFF_MAX, TOFF_STEP, U16] at *
  rw [Nat.mod_eq_of_lt (by omega)]
  omega

theorem toff_down_valid (t : Nat) (h : toffValid t) (hgt : t > TOFF_MIN) :
    toffValid ((t + U16 - TOFF_STEP) % U16) := by
  simp only [toffValid, TOFF_MIN, TOFF_MAX, TOFF_STEP, U16] at *
  have e : (t + 2 ^ 16 - 25) % 2 ^ 16 = t - 25 := by omega
  rw [e]
  omega

theorem handle_ui_ton_timingValid (tUp tDown tSave : Nat) (s : State)
    (h : timingValid s.settings) : timingValid (handle_ui_ton tUp tDown tSave s).settings := by
  rw [handle_ui_ton_settings]
  obtain ⟨h1, h2⟩ := h
  dsimp only
  split_ifs with c1 c2 c2
  · exact ⟨ton_down_valid _ (ton_up_valid _ h1 c1.2) c2.2, h2⟩
  · exact ⟨ton_up_valid _ h1 c1.2, h2⟩
  · exact ⟨ton_down_valid _ h1 c2.2, h2⟩
  · exact ⟨h1, h2⟩

theorem handle_ui_toff_timingValid (tUp tDown tSave : Nat) (s : State)
    (h : timingValid s.settings) : timingValid (handle_ui_toff tUp tDown tSave s).settings := by
  rw [handle_ui_toff_settings]
  obtain ⟨h1, h2⟩ := h
  dsimp only
  split_ifs with c1 c2 c2
  · exact ⟨h1, toff_down_valid _ (toff_up_valid _ h2 c1.2) c2.2⟩
  · exact ⟨h1, toff_up_valid _ h2 c1.2⟩
  · exact ⟨h1, toff_down_valid _ h2 c2.2⟩
  · exact ⟨h1, h2⟩

theorem runEdits_timingValid (es : List EditStep) :
    ∀ s : State, timingValid s.settings → timingValid (runEdits es s).settings := by
  induction es with
  | nil => intro s h; exact h
  | cons e es ih =>
    intro s h
    cases e with
    | ton tUp tDown tSave => exact ih _ (handle_ui_ton_timingValid tUp tDown tSave s h)
    | toff tUp tDown tSave => exact ih _ (handle_ui_toff_timingValid tUp tDown tSave s h)

theorem OnButtonStateChange_frame (b : button_t) (t : Nat) (s : State) :
    (OnButtonStateChange b t s).settings = s.settings ∧
    (OnButtonStateChange b t s).flash = s.flash ∧
    (OnButtonStateChange b t s).trace = s.trace ∧
    (OnButtonStateChange b t s).shouldMove = s.shouldMove ∧
    (OnButtonStateChange b t s).nextSaveTimeMS = s.nextSaveTimeMS := by
  simp only [OnButtonStateChange, apply_ite State.settings, apply_ite State.flash,
    apply_ite State.trace, apply_ite State.shouldMove, apply_ite State.nextSaveTimeMS,
    apply_ite State.uiState, ite_self, and_self]

theorem SparklingThread_iteration_frame (sparking : Bool) (s : State) :
    (SparklingThread_iteration sparking s).settings = s.settings ∧
    (SparklingThread_iteration sparking s).flash = s.flash ∧
    (SparklingThread_iteration sparking s).shouldMove = s.shouldMove ∧
    (SparklingThread_iteration sparking s).nextSaveTimeMS = s.nextSaveTimeMS := by
  simp only [SparklingThread_iteration, apply_ite State.settings, apply_ite State.flash,
    apply_ite State.trace, apply_ite State.shouldMove, apply_ite State.nextSaveTimeMS,
    apply_ite State.uiState, ite_self, and_self]

theorem handle_ui_depth_settings_at (tUp tDown tSave : Nat) (s : State) :
    (handle_ui_depth tUp tDown tSave s).settings =
      (let i : Int := (s.uiState.toNat : Int) - (UI_DEPTH0.toNat : Int)
      let st1 : settings_t :=
        if (TryUseUpButton tUp s).1 = true then
          s.settings.setDigitAt i
            (if (s.settings.getDigitAt i + 1) % U8 > 9 then 0
              else (s.settings.getDigitAt i + 1) % U8)
        else s.settings
      if (TryUseDownButton tDown s).1 = true then
        if st1.getDigitAt i = 0 then st1.setDigitAt i 9
        else st1.setDigitAt i ((st1.getDigitAt i + U8 - 1) % U8)
      else st1) := by
  simp only [handle_ui_depth, TryUseUpButton, TryUseDownButton, ScheduleSaveSettings,
    apply_ite Prod.fst, apply_ite Prod.snd, apply_ite State.settings,
    apply_ite State.downRepeatTime, apply_ite State.uiState,
    ite_self, Bool.and_eq_true, decide_eq_true_eq]

theorem getDigitAt_inArray (st : settings_t) (i : Nat) (hi : i < 4) :
    st.getDigitAt (i : Int) = st.getDigit i := by
  have h : (0 : Int) ≤ (i : Int) ∧ (i : Int) < 4 := by omega
  simp only [settings_t.getDigitAt, h, and_self, if_true, Int.toNat_ofNat]

theorem setDigitAt_inArray (st : settings_t) (i v : Nat) (hi : i < 4) :
    st.setDigitAt (i : Int) v = st.setDigit i v := by
  have h : (0 : Int) ≤ (i : Int) ∧ (i : Int) < 4 := by omega
  simp only [settings_t.setDigitAt, h, and_self, if_true, Int.toNat_ofNat]

/-- In `UI_DEPTH0..UI_DEPTH3` the handler reads and writes the digit of the mode. -/
theorem handle_ui_depth_settings (tUp tDown tSave : Nat) (s : State)
    (hrange : UI_DEPTH0.toNat ≤ s.uiState.toNat ∧ s.uiState.toNat < UI_DEPTH0.toNat + 4) :
    (handle_ui_depth tUp tDown tSave s).settings =
      (let i : Nat := s.uiState.toNat - UI_DEPTH0.toNat
      let st1 : settings_t :=
        if (TryUseUpButton tUp s).1 = true then
          s.settings.setDigit i
            (if (s.settings.getDigit i + 1) % U8 > 9 then 0 else (s.settings.getDigit i + 1) % U8)
        else s.settings
      if (TryUseDownButton tDown s).1 = true then
        if st1.getDigit i = 0 then st1.setDigit i 9
        else st1.setDigit i ((st1.getDigit i + U8 - 1) % U8)
      else st1) := by
  have hi : s.uiState.toNat - UI_DEPTH0.toNat < 4 := by omega
  have e : (s.uiState.toNat : Int) - (UI_DEPTH0.toNat : Int)
      = ((s.uiState.toNat - UI_DEPTH0.toNat : Nat) : Int) := by omega
  rw [handle_ui_depth_settings_at]
  simp only [e, getDigitAt_inArray _ _ hi, setDigitAt_inArray _ _ _ hi]

theorem getDigit_le_of_valid (st : settings_t) (h : digitsValid st) (i : Nat) :
    st.getDigit i ≤ 9 := by
  obtain ⟨h0, h1, h2, h3⟩ := h
  unfold settings_t.getDigit
  split <;> first | assumption | omega

theorem setDigit_valid (st : settings_t) (h : digitsValid st) (i v : Nat) (hv : v ≤ 9) :
    digitsValid (st.setDigit i v) := by
  obtain ⟨h0, h1, h2, h3⟩ := h
  unfold settings_t.setDigit
  split
  · exact ⟨hv, h1, h2, h3⟩
  · exact ⟨h0, hv, h2, h3⟩
  · exact ⟨h0, h1, hv, h3⟩
  · exact ⟨h0, h1, h2, hv⟩
  · exact ⟨h0, h1, h2, h3⟩

theorem getDigit_setDigit_same (st : settings_t) (i v : Nat) (hi : i < 4) :
    (st.setDigit i v).getDigit i = v := by
  have : i = 0 ∨ i = 1 ∨ i = 2 ∨ i = 3 := by omega
  rcases this with h | h | h | h <;> subst h <;> rfl

theorem getDigit_setDigit_other (st : settings_t) (i j v : Nat) (hij : j ≠ i) :
    (st.setDigit i v).getDigit j = st.getDigit j := by
  unfold settings_t.setDigit
  split
  · unfold settings_t.getDigit; split <;> first | rfl | omega
  · unfold settings_t.getDigit; split <;> first | rfl | omega
  · unfold settings_t.getDigit; split <;> first | rfl | omega
  · unfold settings_t.getDigit; split <;> first | rfl | omega
  · rfl

theorem setDigit_frame (st : settings_t) (i v : Nat) :
    (st.setDigit i v).ton_us = st.ton_us ∧ (st.setDigit i v).toff_us = st.toff_us ∧
    (st.setDigit i v).numWrites = st.numWrites ∧ (st.setDigit i v).magic = st.magic := by
  unfold settings_t.setDigit
  split <;> exact ⟨rfl, rfl, rfl, rfl⟩

theorem depth_up_valid (st : settings_t) (h : digitsValid st) (i : Nat) (c : Prop)
    [Decidable c] :
    digitsValid
      (if c then
        st.setDigit i (if (st.getDigit i + 1) % U8 > 9 then 0 else (st.getDigit i + 1) % U8)
      else st) := by
  split
  · apply setDigit_valid _ h
    split <;> omega
  · exact h

theorem depth_down_valid (st : settings_t) (h : digitsValid st) (i : Nat) (c : Prop)
    [Decidable c] :
    digitsValid
      (if c then
        if st.getDigit i = 0 then st.setDigit i 9
        else st.setDigit i ((st.getDigit i + U8 - 1) % U8)
      else st) := by
  have hle := getDigit_le_of_valid _ h i
  split
  · split
    · exact setDigit_valid _ h _ _ (le_refl _)
    · apply setDigit_valid _ h
      simp only [U8]
      omega
  · exact h

theorem getDigitAt_le_of_valid (st : settings_t) (h : digitsValid st) (i : Int)
    (hi : 0 ≤ i ∧ i < 4) : st.getDigitAt i ≤ 9 := by
  simp only [settings_t.getDigitAt, hi, and_self, if_true]
  exact getDigit_le_of_valid st h _

theorem setDigitAt_valid (st : settings_t) (h : digitsValid st) (i : Int) (v : Nat)
    (hv : (0 ≤ i ∧ i < 4) → v ≤ 9) : digitsValid (st.setDigitAt i v) := by
  unfold settings_t.setDigitAt
  split_ifs with h1
  · exact setDigit_valid st h _ _ (hv h1)
  all_goals exact ⟨h.1, h.2.1, h.2.2.1, h.2.2.2⟩

theorem depth_up_valid_at (st : settings_t) (h : digitsValid st) (i : Int) (c : Prop)
    [Decidable c] :
    digitsValid
      (if c then
        st.setDigitAt i
          (if (st.getDigitAt i + 1) % U8 > 9 then 0 else (st.getDigitAt i + 1) % U8)
      else st) := by
  split
  · apply setDigitAt_valid _ h
    intro _
    split <;> omega
  · exact h

theorem depth_down_valid_at (st : settings_t) (h : digitsValid st) (i : Int) (c : Prop)
    [Decidable c] :
    digitsValid
      (if c then
        if st.getDigitAt i = 0 then st.setDigitAt i 9
        else st.setDigitAt i ((st.getDigitAt i + U8 - 1) % U8)
      else st) := by
  split
  · split
    · exact setDigitAt_valid _ h _ _ (fun _ => le_refl _)
    · apply setDigitAt_valid _ h
      intro hi
      have hle := getDigitAt_le_of_valid _ h i hi
      simp only [U8]
      omega
  · exact h

theorem handle_ui_depth_digitsValid (tUp tDown tSave : Nat) (s : State)
    (h : digitsValid s.settings) : digitsValid (handle_ui_depth tUp tDown tSave s).settings := by
  rw [handle_ui_depth_settings_at]
  exact depth_down_valid_at _ (depth_up_valid_at _ h _ _) _ _

theorem handle_ui_ton_frame (tUp tDown tSave : Nat) (s : State) :
    (handle_ui_ton tUp tDown tSave s).flash = s.flash ∧
    (handle_ui_ton tUp tDown tSave s).trace = s.trace ++ [Effect.sleep_ms 10] ∧
    (handle_ui_ton tUp tDown tSave s).shouldMove = s.shouldMove ∧
    (handle_ui_ton tUp tDown tSave s).uiState = s.uiState := by
  simp only [handle_ui_ton, TryUseUpButton, TryUseDownButton, ScheduleSaveSettings,
    apply_ite Prod.fst, apply_ite Prod.snd, apply_ite State.flash, apply_ite State.trace,
    apply_ite State.shouldMove, apply_ite State.uiState, ite_self, and_self]

theorem handle_ui_toff_frame (tUp tDown tSave : Nat) (s : State) :
    (handle_ui_toff tUp tDown tSave s).flash = s.flash ∧
    (handle_ui_toff tUp tDown tSave s).trace = s.trace ++ [Effect.sleep_ms 10] ∧
    (handle_ui_toff tUp tDown tSave s).shouldMove = s.shouldMove ∧
    (handle_ui_toff tUp tDown tSave s).uiState = s.uiState := by
  simp only [handle_ui_toff, TryUseUpButton, TryUseDownButton, ScheduleSaveSettings,
    apply_ite Prod.fst, apply_ite Prod.snd, apply_ite State.flash, apply_ite State.trace,
    apply_ite State.shouldMove, apply_ite State.uiState, ite_self, and_self]

theorem handle_ui_depth_frame (tUp tDown tSave : Nat) (s : State) :
    (handle_ui_depth tUp tDown tSave s).flash = s.flash ∧
    (handle_ui_depth tUp tDown tSave s).trace = s.trace ++ [Effect.sleep_ms 10] ∧
    (handle_ui_depth tUp tDown tSave s).shouldMove = s.shouldMove ∧
    (handle_ui_depth tUp tDown tSave s).uiState = s.uiState := by
  simp only [handle_ui_depth, TryUseUpButton, TryUseDownButton, ScheduleSaveSettings,
    apply_ite Prod.fst, apply_ite Prod.snd, apply_ite State.flash, apply_ite State.trace,
    apply_ite State.shouldMove, apply_ite State.uiState, ite_self, and_self]

theorem handle_ui_preburn_frame (tUp tDown : Nat) (s : State) :
    (handle_ui_preburn tUp tDown s).flash = s.flash ∧
    (handle_ui_preburn tUp tDown s).trace = s.trace ++ [Effect.sleep_ms 10] ∧
    (handle_ui_preburn tUp tDown s).shouldMove = s.shouldMove ∧
    (handle_ui_preburn tUp tDown s).settings = s.settings ∧
    (handle_ui_preburn tUp tDown s).nextSaveTimeMS = s.nextSaveTimeMS := by
  simp only [handle_ui_preburn, TryUseUpButton, TryUseDownButton,
    apply_ite Prod.fst, apply_ite Prod.snd, apply_ite State.flash, apply_ite State.trace,
    apply_ite State.shouldMove, apply_ite State.settings, apply_ite State.nextSaveTimeMS,
    ite_self, and_self]

theorem handle_ui_preburn_uiState (tUp tDown : Nat) (s : State) :
    (handle_ui_preburn tUp tDown s).uiState =
      if (TryUseUpButton tUp s).1 = true ∨ (TryUseDownButton tDown s).1 = true then UI_BURN
      else s.uiState := by
  simp only [handle_ui_preburn, TryUseUpButton, TryUseDownButton,
    apply_ite Prod.fst, apply_ite Prod.snd, apply_ite State.uiState,
    apply_ite State.downRepeatTime, ite_self]
  split_ifs <;> simp_all

theorem main_iteration_settings (tUp tDown tSave : Nat) (s : State) :
    (main_iteration tUp tDown tSave s).settings =
      match s.uiState with
      | UI_DEPTH0 => (handle_ui_depth tUp tDown tSave s).settings
      | UI_DEPTH1 => (handle_ui_depth tUp tDown tSave s).settings
      | UI_DEPTH2 => (handle_ui_depth tUp tDown tSave s).settings
      | UI_DEPTH3 => (handle_ui_depth tUp tDown tSave s).settings
      | UI_TON => (handle_ui_ton tUp tDown tSave s).settings
      | UI_TOFF => (handle_ui_toff tUp tDown tSave s).settings
      | _ => s.settings := by
  cases h : s.uiState <;> simp only [main_iteration, h] <;>
    first | rfl | exact (handle_ui_preburn_frame tUp tDown s).2.2.2.1

theorem main_iteration_frame (tUp tDown tSave : Nat) (s : State) :
    (main_iteration tUp tDown tSave s).flash = s.flash ∧
    erasedOffsets (main_iteration tUp tDown tSave s).trace = erasedOffsets s.trace ∧
    programmedOffsets (main_iteration tUp tDown tSave s).trace = programmedOffsets s.trace := by
  have hd := handle_ui_depth_frame tUp tDown tSave s
  have hton := handle_ui_ton_frame tUp tDown tSave s
  have htoff := handle_ui_toff_frame tUp tDown tSave s
  have hpre := handle_ui_preburn_frame tUp tDown s
  cases h : s.uiState <;>
    simp only [main_iteration, h, handle_ui_jog, handle_ui_burn, handle_ui_postburn, hd, hton,
      htoff, hpre, erasedOffsets_append, programmedOffsets_append, erasedOffsets,
      programmedOffsets, List.append_nil, and_self]

theorem SparklingThread_iteration_offsets (sparking : Bool) (s : State) :
    erasedOffsets (SparklingThread_iteration sparking s).trace = erasedOffsets s.trace ∧
    programmedOffsets (SparklingThread_iteration sparking s).trace
      = programmedOffsets s.trace := by
  simp only [SparklingThread_iteration, apply_ite State.trace, apply_ite State.uiState,
    apply_ite State.shouldMove, apply_ite State.moveDirectionDown, ite_self,
    apply_ite erasedOffsets, apply_ite programmedOffsets, erasedOffsets_append,
    programmedOffsets_append, erasedOffsets, programmedOffsets, List.append_nil, and_self]

theorem SparklingThread_iteration_uiState (sparking : Bool) (s : State) :
    (SparklingThread_iteration sparking s).uiState =
      if sparking ≠ s.wasSparking then (if sparking = true then UI_PREBURN else UI_JOG)
      else s.uiState := by
  simp only [SparklingThread_iteration, apply_ite State.uiState, ite_self]
  split_ifs <;> simp_all

theorem OnButtonStateChange_uiState (b : button_t) (t : Nat) (s : State) :
    (OnButtonStateChange b t s).uiState =
      if s.uiState = UI_BURN ∨ s.uiState = UI_POSTBURN ∨ s.uiState = UI_PREBURN then s.uiState
      else if b.pin = PIN_BUTTON_NEXT ∧ b.state = false then
        ui_state_t.cast ((s.uiState.toNat + 1) % UI_STATE_COUNT.toNat)
      else if b.pin = PIN_BUTTON_PREV ∧ b.state = false then
        ui_state_t.cast ((s.uiState.toNat + UI_STATE_COUNT.toNat - 1) % UI_STATE_COUNT.toNat)
      else s.uiState := by
  simp only [OnButtonStateChange, apply_ite State.uiState, ite_self]
  split_ifs <;> simp_all

theorem main_iteration_uiState (tUp tDown tSave : Nat) (s : State) :
    (main_iteration tUp tDown tSave s).uiState =
      if s.uiState = UI_PREBURN then (handle_ui_preburn tUp tDown s).uiState else s.uiState := by
  have hd := handle_ui_depth_frame tUp tDown tSave s
  have hton := handle_ui_ton_frame tUp tDown tSave s
  have htoff := handle_ui_toff_frame tUp tDown tSave s
  cases h : s.uiState <;>
    simp only [main_iteration, h, handle_ui_jog, handle_ui_burn, handle_ui_postburn, hd, hton,
      htoff, if_true, if_false, reduceCtorEq]

theorem main_iteration_shouldMove (tUp tDown tSave : Nat) (s : State) :
    (main_iteration tUp tDown tSave s).shouldMove =
      if s.uiState = UI_JOG then xor s.upPressed s.downPressed else s.shouldMove := by
  have hd := handle_ui_depth_frame tUp tDown tSave s
  have hton := handle_ui_ton_frame tUp tDown tSave s
  have htoff := handle_ui_toff_frame tUp tDown tSave s
  have hpre := handle_ui_preburn_frame tUp tDown s
  cases h : s.uiState <;>
    simp only [main_iteration, h, handle_ui_jog, handle_ui_burn, handle_ui_postburn, hd, hton,
      htoff, hpre, if_true, if_false, reduceCtorEq]

theorem cast_lt_toNat (n : Nat) (h : n < 7) : (ui_state_t.cast n).toNat = n := by
  interval_cases n <;> rfl

theorem cast_toNat (m : ui_state_t) : ui_state_t.cast m.toNat = m := by
  cases m <;> rfl

theorem handle_ui_ton_numWrites (tUp tDown tSave : Nat) (s : State) :
    (handle_ui_ton tUp tDown tSave s).settings.numWrites = s.settings.numWrites := by
  rw [handle_ui_ton_settings]; dsimp only; split_ifs
  all_goals exact rfl

theorem handle_ui_toff_numWrites (tUp tDown tSave : Nat) (s : State) :
    (handle_ui_toff tUp tDown tSave s).settings.numWrites = s.settings.numWrites := by
  rw [handle_ui_toff_settings]; dsimp only; split_ifs
  all_goals exact rfl

theorem handle_ui_depth_numWrites (tUp tDown tSave : Nat) (s : State)
    (hrange : UI_DEPTH0.toNat ≤ s.uiState.toNat ∧ s.uiState.toNat < UI_DEPTH0.toNat + 4) :
    (handle_ui_depth tUp tDown tSave s).settings.numWrites = s.settings.numWrites := by
  rw [handle_ui_depth_settings _ _ _ _ hrange]; dsimp only
  split_ifs <;> simp only [(setDigit_frame _ _ _).2.2.1]

theorem handle_ui_ton_digitsValid (tUp tDown tSave : Nat) (s : State)
    (h : digitsValid s.settings) : digitsValid (handle_ui_ton tUp tDown tSave s).settings := by
  rw [handle_ui_ton_settings]; dsimp only
  split_ifs <;> exact ⟨h.1, h.2.1, h.2.2.1, h.2.2.2⟩

theorem handle_ui_toff_digitsValid (tUp tDown tSave : Nat) (s : State)
    (h : digitsValid s.settings) : digitsValid (handle_ui_toff tUp tDown tSave s).settings := by
  rw [handle_ui_toff_settings]; dsimp only
  split_ifs <;> exact ⟨h.1, h.2.1, h.2.2.1, h.2.2.2⟩

theorem main_iteration_numWrites (tUp tDown tSave : Nat) (s : State) :
    (main_iteration tUp tDown tSave s).settings.numWrites = s.settings.numWrites := by
  have key := main_iteration_settings tUp tDown tSave s
  cases h : s.uiState <;> rw [h] at key <;> rw [key] <;>
    first
    | rfl
    | exact handle_ui_depth_numWrites tUp tDown tSave s (by rw [h]; decide)
    | exact handle_ui_ton_numWrites tUp tDown tSave s
    | exact handle_ui_toff_numWrites tUp tDown tSave s

theorem main_iteration_digitsValid (tUp tDown tSave : Nat) (s : State)
    (h : digitsValid s.settings) :
    digitsValid (main_iteration tUp tDown tSave s).settings := by
  rw [main_iteration_settings]
  split <;>
    first
    | exact handle_ui_depth_digitsValid tUp tDown tSave s h
    | exact handle_ui_ton_digitsValid tUp tDown tSave s h
    | exact handle_ui_toff_digitsValid tUp tDown tSave s h
    | exact h

/-- No event erases or programs flash, changes the stored records or the write counter. -/
theorem step_frame (e : Event) (s : State) :
    (step e s).flash = s.flash ∧
    (step e s).settings.numWrites = s.settings.numWrites ∧
    erasedOffsets (step e s).trace = erasedOffsets s.trace ∧
    programmedOffsets (step e s).trace = programmedOffsets s.trace := by
  cases e with
  | button b t =>
    have h := OnButtonStateChange_frame b t s
    simp only [step, h.1, h.2.1, h.2.2.1, and_self]
  | ui tUp tDown tSave =>
    have h := main_iteration_frame tUp tDown tSave s
    exact ⟨h.1, main_iteration_numWrites tUp tDown tSave s, h.2.1, h.2.2⟩
  | sensor sparking =>
    have h := SparklingThread_iteration_frame sparking s
    have h2 := SparklingThread_iteration_offsets sparking s
    simp only [step, h.1, h.2.1, h2.1, h2.2, and_self]

theorem run_frame (es : List Event) :
    ∀ s : State,
      (run es s).flash = s.flash ∧
      (run es s).settings.numWrites = s.settings.numWrites ∧
      erasedOffsets (run es s).trace = erasedOffsets s.trace ∧
      programmedOffsets (run es s).trace = programmedOffsets s.trace := by
  induction es with
  | nil => intro s; exact ⟨rfl, rfl, rfl, rfl⟩
  | cons e es ih =>
    intro s
    obtain ⟨h1, h2, h3, h4⟩ := ih (step e s)
    obtain ⟨g1, g2, g3, g4⟩ := step_frame e s
    exact ⟨h1.trans g1, h2.trans g2, h3.trans g3, h4.trans g4⟩

theorem step_digitsValid (e : Event) (s : State) (h : digitsValid s.settings) :
    digitsValid (step e s).settings := by
  cases e with
  | button b t => simp only [step, (OnButtonStateChange_frame b t s).1]; exact h
  | ui tUp tDown tSave => exact main_iteration_digitsValid tUp tDown tSave s h
  | sensor sparking => simp only [step, (SparklingThread_iteration_frame sparking s).1]; exact h

theorem run_digitsValid (es : List Event) :
    ∀ s : State, digitsValid s.settings → digitsValid (run es s).settings := by
  induction es with
  | nil => intro s h; exact h
  | cons e es ih => intro s h; exact ih _ (step_digitsValid e s h)

theorem run_append (es fs : List Event) : ∀ s : State, run (es ++ fs) s = run fs (run es s) := by
  induction es with
  | nil => intro s; rfl
  | cons e es ih => intro s; exact ih (step e s)

/-- Only a main-loop iteration dispatched in `UI_JOG` can set `shouldMove`. -/
theorem step_shouldMove (e : Event) (s : State) (h : (step e s).shouldMove = true) :
    s.shouldMove = true ∨
      ∃ tUp tDown tSave, e = Event.ui tUp tDown tSave ∧ s.uiState = UI_JOG ∧
        xor s.upPressed s.downPressed = true := by
  cases e with
  | button b t =>
    left; simpa only [step, (OnButtonStateChange_frame b t s).2.2.2.1] using h
  | ui tUp tDown tSave =>
    simp only [step, main_iteration_shouldMove] at h
    split_ifs at h with hj
    · right; exact ⟨tUp, tDown, tSave, rfl, hj, h⟩
    · left; exact h
  | sensor sparking =>
    left; simpa only [step, (SparklingThread_iteration_frame sparking s).2.2.1] using h

/-- No event enters `UI_POSTBURN`. -/
theorem step_postburn (e : Event) (s : State) (h : (step e s).uiState = UI_POSTBURN) :
    s.uiState = UI_POSTBURN := by
  have hc : ∀ n, ui_state_t.cast (n % UI_STATE_COUNT.toNat) ≠ UI_POSTBURN := by
    intro n hn
    have h7 : n % 7 < 7 := Nat.mod_lt _ (by omega)
    have := cast_lt_toNat (n % 7) h7
    have e7 : UI_STATE_COUNT.toNat = 7 := rfl
    rw [e7] at hn
    rw [hn] at this
    have e10 : UI_POSTBURN.toNat = 10 := rfl
    omega
  cases e with
  | button b t =>
    simp only [step, OnButtonStateChange_uiState] at h
    split_ifs at h
    · exact h
    · exact absurd h (hc _)
    · exact absurd h (hc _)
    · exact h
  | ui tUp tDown tSave =>
    simp only [step, main_iteration_uiState, handle_ui_preburn_uiState] at h
    split_ifs at h <;> exact h
  | sensor sparking =>
    simp only [step, SparklingThread_iteration_uiState] at h
    split_ifs at h
    exact h

theorem LoadSettings_frame (s : State) :
    (LoadSettings s).flash = s.flash ∧ (LoadSettings s).trace = s.trace ∧
    (LoadSettings s).shouldMove = s.shouldMove ∧ (LoadSettings s).uiState = s.uiState ∧
    (LoadSettings s).nextSaveTimeMS = s.nextSaveTimeMS := by
  unfold LoadSettings
  split <;> exact ⟨rfl, rfl, rfl, rfl, rfl⟩

theorem boot_frame (flash : Nat → settings_t) :
    (boot flash).flash = flash ∧ (boot flash).trace = [] ∧ (boot flash).shouldMove = false ∧
    (boot flash).uiState = UI_JOG ∧ (boot flash).nextSaveTimeMS = 0 := by
  have h := LoadSettings_frame
    { uiState := UI_JOG, rezeroOnBurn := true, moveDirectionDown := true, shouldMove := false,
      nextSaveTimeMS := 0, settings := defaultSettings, upPressed := false,
      downPressed := false, upRepeatTime := 0, downRepeatTime := 0, wasSparking := false,
      flash := flash, trace := [] }
  exact h

theorem run_shouldMove (es : List Event) :
    ∀ s : State, (run es s).shouldMove = true →
      s.shouldMove = true ∨
        ∃ pre tUp tDown tSave post, es = pre ++ Event.ui tUp tDown tSave :: post ∧
          (run pre s).uiState = UI_JOG ∧
          xor (run pre s).upPressed (run pre s).downPressed = true := by
  induction es with
  | nil => intro s h; exact Or.inl h
  | cons e es ih =>
    intro s h
    rcases ih (step e s) h with h1 | ⟨pre, tUp, tDown, tSave, post, he, hj, hx⟩
    · rcases step_shouldMove e s h1 with h2 | ⟨tUp, tDown, tSave, he, hj, hx⟩
      · exact Or.inl h2
      · exact Or.inr ⟨[], tUp, tDown, tSave, es, by rw [he]; rfl, hj, hx⟩
    · exact Or.inr ⟨e :: pre, tUp, tDown, tSave, post, by rw [he]; rfl, hj, hx⟩

theorem run_postburn (es : List Event) :
    ∀ s : State, (run es s).uiState = UI_POSTBURN → s.uiState = UI_POSTBURN := by
  induction es with
  | nil => intro s h; exact h
  | cons e es ih => intro s h; exact step_postburn e s (ih _ h)

theorem main_iteration_wasSparking (tUp tDown tSave : Nat) (s : State) :
    (main_iteration tUp tDown tSave s).wasSparking = s.wasSparking := by
  cases h : s.uiState <;>
    simp only [main_iteration, h, handle_ui_jog, handle_ui_burn, handle_ui_postburn,
      handle_ui_depth, handle_ui_ton, handle_ui_toff, handle_ui_preburn, TryUseUpButton,
      TryUseDownButton, ScheduleSaveSettings, apply_ite Prod.fst, apply_ite Prod.snd,
      apply_ite State.wasSparking, ite_self]

/-! ## Claims about the mode machine -/

/-- C2 (the claim fails).  From boot, press Up, let the main loop run once in `UI_JOG`
and operate Next: the mode is `UI_DEPTH0` and `shouldMove` is still true.  And when Up is
released while the mode is `UI_BURN` the release is dropped, so that back in `UI_JOG`
`shouldMove` is true although the last Up event was a release. -/
theorem C2_shouldMove_true_outside_jog :
    ((run jogThenNext (boot erasedFlash)).uiState = UI_DEPTH0 ∧
      (run jogThenNext (boot erasedFlash)).shouldMove = true) ∧
    ((run releaseDuringBurn (boot erasedFlash)).uiState = UI_JOG ∧
      (run releaseDuringBurn (boot erasedFlash)).shouldMove = true) := by
  decide

/-- C2 (amended).  `shouldMove` is written only by the main-loop iteration dispatched in
`UI_JOG`, which sets it to `upPressed XOR downPressed`, the held flags as last recorded by
`OnButtonStateChange`; button events, the other handlers and `SparklingThread` leave it
unchanged.  So in every state reachable from boot in which `shouldMove` is true, an
earlier main-loop iteration ran in `UI_JOG` with exactly one recorded flag set. -/
theorem C2_shouldMove_written_by_jog_handler (flash : Nat → settings_t) (es : List Event) :
    (∀ (s : State) (tUp tDown tSave : Nat),
      (main_iteration tUp tDown tSave s).shouldMove =
        if s.uiState = UI_JOG then xor s.upPressed s.downPressed else s.shouldMove) ∧
    (∀ (s : State) (b : button_t) (t : Nat), (OnButtonStateChange b t s).shouldMove = s.shouldMove) ∧
    (∀ (s : State) (sparking : Bool),
      (SparklingThread_iteration sparking s).shouldMove = s.shouldMove) ∧
    ((run es (boot flash)).shouldMove = true →
      ∃ pre tUp tDown tSave post, es = pre ++ Event.ui tUp tDown tSave :: post ∧
        (run pre (boot flash)).uiState = UI_JOG ∧
        xor (run pre (boot flash)).upPressed (run pre (boot flash)).downPressed = true) := by
  refine ⟨fun s tUp tDown tSave => main_iteration_shouldMove tUp tDown tSave s,
    fun s b t => (OnButtonStateChange_frame b t s).2.2.2.1,
    fun s sparking => (SparklingThread_iteration_frame sparking s).2.2.1, fun h => ?_⟩
  rcases run_shouldMove es (boot flash) h with h0 | h1
  · rw [(boot_frame flash).2.2.1] at h0; cases h0
  · exact h1

/-- C2 (amended), at a concrete input: after `jogThenNext` from boot `shouldMove` is true,
and the sequence contains a main-loop iteration that ran in `UI_JOG` with one flag set. -/
theorem C2_shouldMove_written_by_jog_handler_witness :
    (run jogThenNext (boot erasedFlash)).shouldMove = true ∧
    ∃ pre tUp tDown tSave post, jogThenNext = pre ++ Event.ui tUp tDown tSave :: post ∧
      (run pre (boot erasedFlash)).uiState = UI_JOG ∧
      xor (run pre (boot erasedFlash)).upPressed (run pre (boot erasedFlash)).downPressed
        = true :=
  ⟨by decide,
    (C2_shouldMove_written_by_jog_handler erasedFlash jogThenNext).2.2.2 (by decide)⟩

/-- C3 (the claim fails).  No step of the program takes the mode from `UI_BURN` to
`UI_POSTBURN`: the program has no BurnComplete step. -/
theorem C3_no_step_from_burn_to_postburn :
    ¬ ∃ (e : Event) (s : State), s.uiState = UI_BURN ∧ (step e s).uiState = UI_POSTBURN := by
  rintro ⟨e, s, hb, hp⟩
  have := step_postburn e s hp
  rw [hb] at this
  cases this

/-- C3 (amended).  Starting in `UI_JOG` with the sensor low, a rising sensor edge sets the
mode to `UI_PREBURN`, a main-loop iteration in which the Up or the Down tick fires sets it
to `UI_BURN`, and a falling sensor edge sets it back to `UI_JOG`, the mode the sequence
started in.  No step of the program
sets the mode to `UI_POSTBURN`, so that mode is never entered from boot; a falling edge in
`UI_POSTBURN` would set the mode to `UI_JOG`. -/
theorem C3_jog_preburn_burn_jog (s : State) (tUp tDown tSave : Nat)
    (hjog : s.uiState = UI_JOG) (hlow : s.wasSparking = false)
    (hconfirm : (TryUseUpButton tUp (SparklingThread_iteration true s)).1 = true ∨
      (TryUseDownButton tDown (SparklingThread_iteration true s)).1 = true) :
    (SparklingThread_iteration true s).uiState = UI_PREBURN ∧
    (main_iteration tUp tDown tSave (SparklingThread_iteration true s)).uiState = UI_BURN ∧
    (SparklingThread_iteration false
      (main_iteration tUp tDown tSave (SparklingThread_iteration true s))).uiState = s.uiState ∧
    (∀ (e : Event) (s1 : State), (step e s1).uiState = UI_POSTBURN → s1.uiState = UI_POSTBURN) ∧
    (∀ (flash : Nat → settings_t) (es : List Event),
      (run es (boot flash)).uiState ≠ UI_POSTBURN) ∧
    (∀ s1 : State, s1.uiState = UI_POSTBURN → s1.wasSparking = true →
      (SparklingThread_iteration false s1).uiState = UI_JOG) := by
  have h1 : (SparklingThread_iteration true s).uiState = UI_PREBURN := by
    rw [SparklingThread_iteration_uiState, hlow]; rfl
  have hw1 : (SparklingThread_iteration true s).wasSparking = true := by
    simp only [SparklingThread_iteration, apply_ite State.wasSparking, ite_self]
  have h2 : (main_iteration tUp tDown tSave (SparklingThread_iteration true s)).uiState
      = UI_BURN := by
    rw [main_iteration_uiState, if_pos h1, handle_ui_preburn_uiState, if_pos hconfirm]
  have hw2 : (main_iteration tUp tDown tSave (SparklingThread_iteration true s)).wasSparking
      = true := by
    rw [main_iteration_wasSparking, hw1]
  refine ⟨h1, h2, ?_, step_postburn, ?_, ?_⟩
  · rw [SparklingThread_iteration_uiState, hw2, hjog]; rfl
  · intro flash es h
    have := run_postburn es (boot flash) h
    rw [(boot_frame flash).2.2.2.1] at this
    cases this
  · intro s1 _ hw
    rw [SparklingThread_iteration_uiState, hw]; rfl

/-- C3 (amended), at a concrete input: boot on an erased flash with the Up button pressed
at 1000 ms, the confirming main-loop iteration at the same time. -/
theorem C3_jog_preburn_burn_jog_witness :
    (SparklingThread_iteration true
      (step (Event.button { pin := PIN_BUTTON_UP, state := true } 1000000)
        (boot erasedFlash))).uiState = UI_PREBURN ∧
    (main_iteration 1000000 1000000 1000000
      (SparklingThread_iteration true
        (step (Event.button { pin := PIN_BUTTON_UP, state := true } 1000000)
          (boot erasedFlash)))).uiState = UI_BURN ∧
    (SparklingThread_iteration false
      (main_iteration 1000000 1000000 1000000
        (SparklingThread_iteration true
          (step (Event.button { pin := PIN_BUTTON_UP, state := true } 1000000)
            (boot erasedFlash))))).uiState = UI_JOG :=
  have h := C3_jog_preburn_burn_jog
    (step (Event.button { pin := PIN_BUTTON_UP, state := true } 1000000) (boot erasedFlash))
    1000000 1000000 1000000 (by decide) (by decide) (by decide)
  ⟨h.1, h.2.1, h.2.2.1⟩

/-- C4 (the claim fails).  A rising sensor edge processed in `UI_BURN` or in `UI_POSTBURN`
sets the mode to `UI_PREBURN`. -/
theorem C4_spark_detected_leaves_burn :
    (stateInMode UI_BURN false).uiState = UI_BURN ∧
    (SparklingThread_iteration true (stateInMode UI_BURN false)).uiState = UI_PREBURN ∧
    (stateInMode UI_POSTBURN false).uiState = UI_POSTBURN ∧
    (SparklingThread_iteration true (stateInMode UI_POSTBURN false)).uiState = UI_PREBURN := by
  decide

/-- C4 (amended).  A rising sensor edge (sample true, previous sample false) sets the mode
to `UI_PREBURN` whatever the mode was: `UI_PREBURN` is left unchanged, `UI_BURN` and
`UI_POSTBURN` become `UI_PREBURN`. -/
theorem C4_spark_detected_sets_preburn (s : State) (hlow : s.wasSparking = false) :
    (SparklingThread_iteration true s).uiState = UI_PREBURN := by
  rw [SparklingThread_iteration_uiState, hlow]; rfl

/-- C4 (amended), at a concrete input: a rising edge in `UI_PREBURN`. -/
theorem C4_spark_detected_sets_preburn_witness :
    (stateInMode UI_PREBURN false).wasSparking = false ∧
    (SparklingThread_iteration true (stateInMode UI_PREBURN false)).uiState = UI_PREBURN :=
  ⟨rfl, C4_spark_detected_sets_preburn (stateInMode UI_PREBURN false) rfl⟩

/-- C5, one event: in a navigable mode the Next event moves to ordinal `(m + 1) % 7` and
the Prev event to ordinal `(m + 6) % 7`. -/
theorem OnButtonStateChange_nav (s : State) (t : Nat) (h : s.uiState.toNat < 7) :
    (OnButtonStateChange { pin := PIN_BUTTON_NEXT, state := false } t s).uiState.toNat
      = (s.uiState.toNat + 1) % 7 ∧
    (OnButtonStateChange { pin := PIN_BUTTON_PREV, state := false } t s).uiState.toNat
      = (s.uiState.toNat + 6) % 7 := by
  have hn : ¬ (s.uiState = UI_BURN ∨ s.uiState = UI_POSTBURN ∨ s.uiState = UI_PREBURN) := by
    rintro (h1 | h1 | h1) <;> rw [h1] at h <;> revert h <;> decide
  have e7 : UI_STATE_COUNT.toNat = 7 := rfl
  constructor
  · rw [OnButtonStateChange_uiState, if_neg hn, if_pos ⟨rfl, rfl⟩, e7,
      cast_lt_toNat _ (Nat.mod_lt _ (by omega))]
  · rw [OnButtonStateChange_uiState, if_neg hn, if_neg (by decide), if_pos ⟨rfl, rfl⟩, e7,
      cast_lt_toNat _ (Nat.mod_lt _ (by omega))]
    omega

theorem run_nav (evs : List NavEvent) :
    ∀ s : State, s.uiState.toNat < 7 →
      (run (evs.map NavEvent.toEvent) s).uiState.toNat
        = (s.uiState.toNat + evs.countP NavEvent.isNext + 6 * evs.countP NavEvent.isPrev) % 7 := by
  induction evs with
  | nil => intro s h; simp only [List.map_nil, run, List.countP_nil]; omega
  | cons e evs ih =>
    intro s h
    cases e with
    | next t =>
      have h1 := (OnButtonStateChange_nav s t h).1
      have h2 : (step (NavEvent.next t).toEvent s).uiState.toNat < 7 := by
        show (OnButtonStateChange _ t s).uiState.toNat < 7
        rw [h1]; exact Nat.mod_lt _ (by omega)
      have h3 := ih _ h2
      have h4 : (step (NavEvent.next t).toEvent s).uiState.toNat = (s.uiState.toNat + 1) % 7 := h1
      rw [h4] at h3
      simp only [List.map_cons, run, h3, List.countP_cons, NavEvent.isNext, NavEvent.isPrev,
        if_true, Bool.false_eq_true, if_false]
      omega
    | prev t =>
      have h1 := (OnButtonStateChange_nav s t h).2
      have h2 : (step (NavEvent.prev t).toEvent s).uiState.toNat < 7 := by
        show (OnButtonStateChange _ t s).uiState.toNat < 7
        rw [h1]; exact Nat.mod_lt _ (by omega)
      have h3 := ih _ h2
      have h4 : (step (NavEvent.prev t).toEvent s).uiState.toNat = (s.uiState.toNat + 6) % 7 := h1
      rw [h4] at h3
      simp only [List.map_cons, run, h3, List.countP_cons, NavEvent.isNext, NavEvent.isPrev,
        if_true, Bool.false_eq_true, if_false]
      omega

/-- C5.  A Next (Prev) event is the state change of the Next (Prev) button on which the
callback navigates, the one reporting `state == false`.  For every mode `m` of the
navigable group (ordinal below 7), `OnButtonStateChange` sets the mode to ordinal
`(m + 1) mod 7` on a Next event and to ordinal `(m + 6) mod 7` on a Prev event; a state
change reporting `state == true` leaves the mode as it is.  Hence after every initial
part of every finite sequence of Next/Prev events started in the group the mode is in
the group, and its ordinal is the start ordinal plus (number of Next minus number of
Prev) modulo 7. -/
theorem C5_next_prev_cycle_through_group (s : State) (h : s.uiState.toNat < 7) :
    (∀ t : Nat,
      (OnButtonStateChange { pin := PIN_BUTTON_NEXT, state := false } t s).uiState
        = ui_state_t.cast ((s.uiState.toNat + 1) % 7) ∧
      (OnButtonStateChange { pin := PIN_BUTTON_PREV, state := false } t s).uiState
        = ui_state_t.cast ((s.uiState.toNat + 6) % 7)) ∧
    (∀ (pin t : Nat), (OnButtonStateChange { pin := pin, state := true } t s).uiState = s.uiState) ∧
    (∀ (evs : List NavEvent) (k : Nat),
      (run ((evs.take k).map NavEvent.toEvent) s).uiState.toNat < 7 ∧
      ((run ((evs.take k).map NavEvent.toEvent) s).uiState.toNat : Int)
        = ((s.uiState.toNat : Int) + ((evs.take k).countP NavEvent.isNext : Int)
            - ((evs.take k).countP NavEvent.isPrev : Int)) % 7) := by
  refine ⟨?_, ?_, ?_⟩
  · intro t
    have h1 := OnButtonStateChange_nav s t h
    constructor
    · rw [← h1.1, cast_toNat]
    · rw [← h1.2, cast_toNat]
  · intro pin t
    rw [OnButtonStateChange_uiState]
    simp only [Bool.true_eq_false, and_false, if_false, ite_self]
  · intro evs k
    have h1 := run_nav (evs.take k) s h
    constructor
    · rw [h1]; exact Nat.mod_lt _ (by omega)
    · rw [h1]; omega

/-- C5 at a concrete input: from `UI_TOFF` the Next event wraps to `UI_JOG`, from `UI_JOG`
the Prev event wraps to `UI_TOFF`, and Next, Next, Prev from `UI_JOG` ends in
`UI_DEPTH0`. -/
theorem C5_next_prev_cycle_through_group_witness :
    (OnButtonStateChange { pin := PIN_BUTTON_NEXT, state := false } 0
      (stateInMode UI_TOFF false)).uiState = UI_JOG ∧
    (OnButtonStateChange { pin := PIN_BUTTON_PREV, state := false } 0
      (stateInMode UI_JOG false)).uiState = UI_TOFF ∧
    (run ([NavEvent.next 0, NavEvent.next 1, NavEvent.prev 2].map NavEvent.toEvent)
      (stateInMode UI_JOG false)).uiState.toNat = 1 :=
  have h6 := C5_next_prev_cycle_through_group (stateInMode UI_TOFF false) (by decide)
  have h0 := C5_next_prev_cycle_through_group (stateInMode UI_JOG false) (by decide)
  ⟨(h6.1 0).1, (h0.1 0).2, by
    have h := (h0.2.2 [NavEvent.next 0, NavEvent.next 1, NavEvent.prev 2] 3).2
    have e : (stateInMode UI_JOG false).uiState.toNat = 0 := rfl
    simp [List.take, e, List.countP_cons, NavEvent.isNext, NavEvent.isPrev] at h
    exact_mod_cast h⟩

/-! ## Claims about parameter editing -/

/-- C6.  The defaults satisfy the four conditions (`ton_us` within `[TON_MIN, TON_MAX]` and
on the `TON_STEP` grid, `toff_us` within `[TOFF_MIN, TOFF_MAX]` and on the `TOFF_STEP`
grid), and from any values that satisfy them every finite sequence of `handle_ui_ton` /
`handle_ui_toff` calls, whatever the clock readings and hence the tick outcomes, ends in
values that satisfy them.  At a bound the value stays: at `TON_MAX` (`TOFF_MAX`) a call
without a Down tick leaves it there, at `TON_MIN` (`TOFF_MIN`) a call without an Up tick
leaves it there. -/
theorem C6_durations_stay_in_range_on_grid (s : State) (h : timingValid s.settings)
    (es : List EditStep) :
    timingValid defaultSettings ∧
    timingValid (runEdits es s).settings ∧
    (∀ tUp tDown tSave : Nat, s.settings.ton_us = TON_MAX →
      (TryUseDownButton tDown s).1 = false →
      (handle_ui_ton tUp tDown tSave s).settings.ton_us = TON_MAX) ∧
    (∀ tUp tDown tSave : Nat, s.settings.ton_us = TON_MIN →
      (TryUseUpButton tUp s).1 = false →
      (handle_ui_ton tUp tDown tSave s).settings.ton_us = TON_MIN) ∧
    (∀ tUp tDown tSave : Nat, s.settings.toff_us = TOFF_MAX →
      (TryUseDownButton tDown s).1 = false →
      (handle_ui_toff tUp tDown tSave s).settings.toff_us = TOFF_MAX) ∧
    (∀ tUp tDown tSave : Nat, s.settings.toff_us = TOFF_MIN →
      (TryUseUpButton tUp s).1 = false →
      (handle_ui_toff tUp tDown tSave s).settings.toff_us = TOFF_MIN) := by
  refine ⟨by decide, runEdits_timingValid es s h, ?_, ?_, ?_, ?_⟩
  · intro tUp tDown tSave hmax hdown
    rw [handle_ui_ton_settings]
    simp only [hmax, hdown, lt_irrefl, and_false, if_false, Bool.false_eq_true, false_and]
  · intro tUp tDown tSave hmin hup
    rw [handle_ui_ton_settings]
    simp only [hmin, hup, gt_iff_lt, lt_irrefl, and_false, if_false, Bool.false_eq_true,
      false_and]
  · intro tUp tDown tSave hmax hdown
    rw [handle_ui_toff_settings]
    simp only [hmax, hdown, lt_irrefl, and_false, if_false, Bool.false_eq_true, false_and]
  · intro tUp tDown tSave hmin hup
    rw [handle_ui_toff_settings]
    simp only [hmin, hup, gt_iff_lt, lt_irrefl, and_false, if_false, Bool.false_eq_true,
      false_and]

/-- C6 at a concrete input: from boot on an erased flash with Up pressed at 1000 ms, a
`handle_ui_ton` call and a `handle_ui_toff` call that each take an Up tick. -/
theorem C6_durations_stay_in_range_on_grid_witness :
    timingValid
      (step (Event.button { pin := PIN_BUTTON_UP, state := true } 1000000)
        (boot erasedFlash)).settings ∧
    timingValid
      (runEdits [EditStep.ton 1000000 1000000 1000000, EditStep.toff 1150000 1150000 1150000]
        (step (Event.button { pin := PIN_BUTTON_UP, state := true } 1000000)
          (boot erasedFlash))).settings :=
  ⟨by decide,
    (C6_durations_stay_in_range_on_grid
      (step (Event.button { pin := PIN_BUTTON_UP, state := true } 1000000) (boot erasedFlash))
      (by decide)
      [EditStep.ton 1000000 1000000 1000000, EditStep.toff 1150000 1150000 1150000]).2.1⟩

/-- C7.  In edit mode `UI_DEPTH0 + i` (`i` in 0..3) with digit `i` in 0..9, one
`handle_ui_depth` call with only an Up tick sets digit `i` to `(d + 1) mod 10`, one with
only a Down tick sets it to `(d + 9) mod 10`, and both leave the other three digits,
`ton_us` and `toff_us` unchanged.  If all four digits are in 0..9 they stay so under
every sequence of events of the running program. -/
theorem C7_depth_digit_wraps_mod_10 (s : State) (i tUp tDown tSave : Nat) (hi : i < 4)
    (hmode : s.uiState.toNat = UI_DEPTH0.toNat + i) (hd : s.settings.getDigit i ≤ 9) :
    ((TryUseUpButton tUp s).1 = true → (TryUseDownButton tDown s).1 = false →
      (handle_ui_depth tUp tDown tSave s).settings.getDigit i
        = (s.settings.getDigit i + 1) % 10 ∧
      (∀ j, j ≠ i →
        (handle_ui_depth tUp tDown tSave s).settings.getDigit j = s.settings.getDigit j) ∧
      (handle_ui_depth tUp tDown tSave s).settings.ton_us = s.settings.ton_us ∧
      (handle_ui_depth tUp tDown tSave s).settings.toff_us = s.settings.toff_us) ∧
    ((TryUseUpButton tUp s).1 = false → (TryUseDownButton tDown s).1 = true →
      (handle_ui_depth tUp tDown tSave s).settings.getDigit i
        = (s.settings.getDigit i + 9) % 10 ∧
      (∀ j, j ≠ i →
        (handle_ui_depth tUp tDown tSave s).settings.getDigit j = s.settings.getDigit j) ∧
      (handle_ui_depth tUp tDown tSave s).settings.ton_us = s.settings.ton_us ∧
      (handle_ui_depth tUp tDown tSave s).settings.toff_us = s.settings.toff_us) ∧
    (digitsValid s.settings → ∀ es : List Event, digitsValid (run es s).settings) := by
  have hidx : s.uiState.toNat - UI_DEPTH0.toNat = i := by
    rw [hmode]; exact Nat.add_sub_cancel_left _ _
  have hrange : UI_DEPTH0.toNat ≤ s.uiState.toNat ∧ s.uiState.toNat < UI_DEPTH0.toNat + 4 := by
    rw [hmode]; omega
  refine ⟨?_, ?_, fun hv es => run_digitsValid es s hv⟩
  · intro hup hdown
    rw [handle_ui_depth_settings _ _ _ _ hrange]
    simp only [hidx, hup, hdown, if_true, Bool.false_eq_true, if_false]
    refine ⟨?_, fun j hj => getDigit_setDigit_other _ _ _ _ hj, (setDigit_frame _ _ _).1,
      (setDigit_frame _ _ _).2.1⟩
    rw [getDigit_setDigit_same _ _ _ hi]
    simp only [U8]
    split <;> omega
  · intro hup hdown
    rw [handle_ui_depth_settings _ _ _ _ hrange]
    simp only [hidx, hup, hdown, if_true, Bool.false_eq_true, if_false]
    split
    · refine ⟨?_, fun j hj => getDigit_setDigit_other _ _ _ _ hj, (setDigit_frame _ _ _).1,
        (setDigit_frame _ _ _).2.1⟩
      rw [getDigit_setDigit_same _ _ _ hi]
      omega
    · refine ⟨?_, fun j hj => getDigit_setDigit_other _ _ _ _ hj, (setDigit_frame _ _ _).1,
        (setDigit_frame _ _ _).2.1⟩
      rw [getDigit_setDigit_same _ _ _ hi]
      simp only [U8]
      omega

/-- C7 at a concrete input: in `UI_DEPTH2` with Up pressed at 1000 ms, the call at 1000 ms
takes an Up tick only, and digit 2 goes from 0 to 1. -/
theorem C7_depth_digit_wraps_mod_10_witness :
    (TryUseUpButton 1000000
      (step (Event.button { pin := PIN_BUTTON_UP, state := true } 1000000)
        (stateInMode UI_DEPTH2 false))).1 = true ∧
    (TryUseDownButton 1000000
      (step (Event.button { pin := PIN_BUTTON_UP, state := true } 1000000)
        (stateInMode UI_DEPTH2 false))).1 = false ∧
    (handle_ui_depth 1000000 1000000 1000000
      (step (Event.button { pin := PIN_BUTTON_UP, state := true } 1000000)
        (stateInMode UI_DEPTH2 false))).settings.getDigit 2 = (0 + 1) % 10 :=
  ⟨by decide, by decide,
    ((C7_depth_digit_wraps_mod_10
      (step (Event.button { pin := PIN_BUTTON_UP, state := true } 1000000)
        (stateInMode UI_DEPTH2 false))
      2 1000000 1000000 1000000 (by decide) (by decide) (by decide)).1
      (by decide) (by decide)).1⟩

theorem scheduled_time_ne_zero (t : Nat) : (now_ms t + SAVE_DELAY_MS) % U64 ≠ 0 := by
  have h : t % U64 < U64 := Nat.mod_lt _ (by norm_num [U64])
  simp only [now_ms, SAVE_DELAY_MS, U64] at *
  omega

theorem main_iteration_nextSave (tUp tDown tSave : Nat) (s : State) :
    (main_iteration tUp tDown tSave s).nextSaveTimeMS = s.nextSaveTimeMS ∨
    (main_iteration tUp tDown tSave s).nextSaveTimeMS = (now_ms tSave + SAVE_DELAY_MS) % U64 := by
  cases h : s.uiState <;>
    simp only [main_iteration, h, handle_ui_jog, handle_ui_burn, handle_ui_postburn,
      handle_ui_depth, handle_ui_ton, handle_ui_toff, handle_ui_preburn, TryUseUpButton,
      TryUseDownButton, ScheduleSaveSettings, apply_ite Prod.fst, apply_ite Prod.snd,
      apply_ite State.nextSaveTimeMS, ite_self, true_or] <;>
    split_ifs <;> simp only [true_or, or_true]

theorem step_nextSave_ne_zero (e : Event) (s : State) (h : s.nextSaveTimeMS ≠ 0) :
    (step e s).nextSaveTimeMS ≠ 0 := by
  cases e with
  | button b t => simpa only [step, (OnButtonStateChange_frame b t s).2.2.2.2] using h
  | ui tUp tDown tSave =>
    rcases main_iteration_nextSave tUp tDown tSave s with h1 | h1
    · simpa only [step, h1] using h
    · simpa only [step, h1] using scheduled_time_ne_zero tSave
  | sensor sparking =>
    simpa only [step, (SparklingThread_iteration_frame sparking s).2.2.2] using h

theorem run_nextSave_ne_zero (es : List Event) :
    ∀ s : State, s.nextSaveTimeMS ≠ 0 → (run es s).nextSaveTimeMS ≠ 0 := by
  induction es with
  | nil => intro s h; exact h
  | cons e es ih => intro s h; exact ih _ (step_nextSave_ne_zero e s h)

/-! ## Claims about the main loop and the settings store -/

/-- C9 (the code at the scenario).  From boot on an erased flash, `fourUpTicksInTon`
reaches `UI_TON`, takes four Up ticks and leaves `ton_us = 90` in RAM with a save
scheduled for 6450 ms.  The main loop never calls `MaybeSaveSettings` (the call is
commented out), so whatever events follow, for however long, the flash stays erased, the
write counter stays 0 and nothing is erased or programmed; after a power cycle
`LoadSettings` finds no valid slot and `ton_us` is the default 50 again. -/
theorem C9_main_loop_never_commits :
    (run fourUpTicksInTon (boot erasedFlash)).uiState = UI_TON ∧
    (run fourUpTicksInTon (boot erasedFlash)).settings.ton_us = 90 ∧
    (run fourUpTicksInTon (boot erasedFlash)).nextSaveTimeMS = 6450 ∧
    ∀ idle : List Event,
      (run idle (run fourUpTicksInTon (boot erasedFlash))).flash = erasedFlash ∧
      (run idle (run fourUpTicksInTon (boot erasedFlash))).settings.numWrites = 0 ∧
      (run idle (run fourUpTicksInTon (boot erasedFlash))).nextSaveTimeMS ≠ 0 ∧
      erasedOffsets (run idle (run fourUpTicksInTon (boot erasedFlash))).trace = [] ∧
      programmedOffsets (run idle (run fourUpTicksInTon (boot erasedFlash))).trace = [] ∧
      (boot (run idle (run fourUpTicksInTon (boot erasedFlash))).flash).settings.ton_us
        = 50 := by
  refine ⟨by decide, by decide, by decide, fun idle => ?_⟩
  have hrun := run_frame (fourUpTicksInTon ++ idle) (boot erasedFlash)
  rw [run_append] at hrun
  obtain ⟨h1, h2, h3, h4⟩ := hrun
  have hb := boot_frame erasedFlash
  rw [hb.1] at h1
  rw [boot_erasedFlash_settings] at h2
  rw [hb.2.1] at h3 h4
  refine ⟨h1, h2, ?_, h3, h4, ?_⟩
  · exact run_nextSave_ne_zero idle _ (by decide)
  · rw [h1, boot_erasedFlash_settings]; rfl

/-! ## Facts about the debounced save -/

theorem schedule_value (t : Nat) :
    (now_ms t + SAVE_DELAY_MS) % U64 = now_ms t + SAVE_DELAY_MS := by
  have h : t % U64 < U64 := Nat.mod_lt _ (by norm_num [U64])
  simp only [now_ms, SAVE_DELAY_MS, U64] at *
  omega

theorem MaybeSaveSettings_idle (t : Nat) (s : State) (h : s.nextSaveTimeMS = 0) :
    MaybeSaveSettings t s = s := by
  simp only [MaybeSaveSettings, h, if_true]

theorem MaybeSaveSettings_early (t : Nat) (s : State) (h : now_ms t < s.nextSaveTimeMS) :
    MaybeSaveSettings t s = s := by
  have h1 : ¬ now_ms t ≥ s.nextSaveTimeMS := by omega
  simp only [MaybeSaveSettings, h1, if_false, ite_self]

theorem MaybeSaveSettings_due (t : Nat) (s : State) (h0 : s.nextSaveTimeMS ≠ 0)
    (h : s.nextSaveTimeMS ≤ now_ms t) :
    MaybeSaveSettings t s = { SaveSettings s with nextSaveTimeMS := 0 } := by
  have h1 : now_ms t ≥ s.nextSaveTimeMS := h
  simp only [MaybeSaveSettings, h0, h1, if_true, if_false]

theorem SaveSettings_programmed (s : State) :
    (programmedOffsets (SaveSettings s).trace).length
      = (programmedOffsets s.trace).length + 1 := by
  rw [SaveSettings_trace, programmedOffsets_append]
  simp [programmedOffsets]

theorem saveTimes_ticks_idle (ops : List SaveOp) :
    ∀ s : State, s.nextSaveTimeMS = 0 → scheduleTimes ops = [] →
      saveTimes ops s = [] ∧ runSaveOps ops s = s := by
  induction ops with
  | nil => intro s _ _; exact ⟨rfl, rfl⟩
  | cons op ops ih =>
    intro s h0 hs
    cases op with
    | schedule t => simp [scheduleTimes] at hs
    | tick t =>
      have e : (SaveOp.tick t).apply s = s := MaybeSaveSettings_idle t s h0
      have := ih s h0 (by simpa [scheduleTimes] using hs)
      simp only [saveTimes, runSaveOps, e, ne_eq, not_true_eq_false, if_false]
      exact this

theorem le_lastScheduleTime (ops : List SaveOp) :
    ∀ d : Nat, (∀ op ∈ ops, d ≤ op.ms) → (ops.map SaveOp.ms).Pairwise (· ≤ ·) →
      d ≤ lastScheduleTime ops d := by
  induction ops with
  | nil => intro d _ _; exact le_refl _
  | cons op ops ih =>
    intro d hd hs
    rw [List.map_cons, List.pairwise_cons] at hs
    cases op with
    | schedule t =>
      have h1 := ih (now_ms t)
        (fun op hop => hs.1 _ (List.mem_map_of_mem _ hop)) hs.2
      have h2 := hd (SaveOp.schedule t) (List.mem_cons_self _ _)
      simp only [lastScheduleTime]
      exact le_trans h2 h1
    | tick t =>
      simp only [lastScheduleTime]
      exact ih d (fun op hop => hd op (List.mem_cons_of_mem _ hop)) hs.2

theorem mem_scheduleTimes (ops : List SaveOp) (x : Nat) (h : x ∈ scheduleTimes ops) :
    ∃ op ∈ ops, op.ms = x := by
  induction ops with
  | nil => simp [scheduleTimes] at h
  | cons op ops ih =>
    cases op with
    | schedule t =>
      simp only [scheduleTimes, List.mem_cons] at h
      rcases h with h | h
      · exact ⟨SaveOp.schedule t, List.mem_cons_self _ _, h.symm⟩
      · obtain ⟨op, hop, e⟩ := ih h
        exact ⟨op, List.mem_cons_of_mem _ hop, e⟩
    | tick t =>
      simp only [scheduleTimes] at h
      obtain ⟨op, hop, e⟩ := ih h
      exact ⟨op, List.mem_cons_of_mem _ hop, e⟩

theorem lastScheduleTime_of_no_schedule (ops : List SaveOp) (d : Nat)
    (h : scheduleTimes ops = []) : lastScheduleTime ops d = d := by
  induction ops with
  | nil => rfl
  | cons op ops ih =>
    cases op with
    | schedule t => simp [scheduleTimes] at h
    | tick t => simp only [lastScheduleTime]; exact ih (by simpa [scheduleTimes] using h)

theorem lastScheduleTime_mem (ops : List SaveOp) :
    ∀ d : Nat, scheduleTimes ops ≠ [] → lastScheduleTime ops d ∈ scheduleTimes ops := by
  induction ops with
  | nil => intro d h; exact absurd rfl h
  | cons op ops ih =>
    intro d h
    cases op with
    | schedule t =>
      simp only [lastScheduleTime, scheduleTimes, List.mem_cons]
      by_cases hs : scheduleTimes ops = []
      · left; exact lastScheduleTime_of_no_schedule ops _ hs
      · right; exact ih _ hs
    | tick t =>
      simp only [lastScheduleTime, scheduleTimes] at h ⊢
      exact ih d h

/-- With a save pending for `tl + SAVE_DELAY_MS`, where `tl` is the time of the latest
`ScheduleSaveSettings` call so far. -/
theorem debounce_pending (ops : List SaveOp) :
    ∀ (s : State) (tl : Nat), s.nextSaveTimeMS = tl + SAVE_DELAY_MS →
      (∀ op ∈ ops, tl ≤ op.ms) → (ops.map SaveOp.ms).Pairwise (· ≤ ·) →
      List.Chain (fun a b => b < a + SAVE_DELAY_MS) tl (scheduleTimes ops) →
      (∃ u ∈ tickTimes ops, lastScheduleTime ops tl + SAVE_DELAY_MS ≤ u) →
      ∃ u, saveTimes ops s = [u] ∧ lastScheduleTime ops tl + SAVE_DELAY_MS ≤ u ∧
        (runSaveOps ops s).nextSaveTimeMS = 0 ∧
        (programmedOffsets (runSaveOps ops s).trace).length
          = (programmedOffsets s.trace).length + 1 := by
  induction ops with
  | nil =>
    intro s tl _ _ _ _ htick
    obtain ⟨u, hu, _⟩ := htick
    simp [tickTimes] at hu
  | cons op ops ih =>
    intro s tl hnext hge hsorted hchain htick
    rw [List.map_cons, List.pairwise_cons] at hsorted
    have hge2 : ∀ op2 ∈ ops, op.ms ≤ op2.ms :=
      fun op2 hop => hsorted.1 _ (List.mem_map_of_mem _ hop)
    cases op with
    | schedule t =>
      simp only [scheduleTimes, List.chain_cons] at hchain
      have hnext1 : (ScheduleSaveSettings t s).nextSaveTimeMS = now_ms t + SAVE_DELAY_MS :=
        schedule_value t
      obtain ⟨u, h1, h2, h3, h4⟩ := ih (ScheduleSaveSettings t s) (now_ms t) hnext1 hge2
        hsorted.2 hchain.2 htick
      have htr : (ScheduleSaveSettings t s).trace = s.trace := by
        simp only [ScheduleSaveSettings]
      refine ⟨u, ?_, h2, ?_, ?_⟩
      · simp only [saveTimes, SaveOp.apply, htr, ne_eq, not_true_eq_false, if_false]
        exact h1
      · simp only [runSaveOps, SaveOp.apply]; exact h3
      · simp only [runSaveOps, SaveOp.apply]; rw [h4, htr]
    | tick t =>
      simp only [scheduleTimes] at hchain
      simp only [lastScheduleTime] at htick ⊢
      by_cases hdue : tl + SAVE_DELAY_MS ≤ now_ms t
      · have hnone : scheduleTimes ops = [] := by
          cases hst : scheduleTimes ops with
          | nil => rfl
          | cons t1 rest =>
            exfalso
            rw [hst, List.chain_cons] at hchain
            obtain ⟨op2, hop2, e2⟩ := mem_scheduleTimes ops t1 (by rw [hst]; exact List.mem_cons_self _ _)
            have := hge2 op2 hop2
            rw [e2] at this
            have h5 : now_ms t ≤ t1 := this
            have := hchain.1
            omega
        have hne : s.nextSaveTimeMS ≠ 0 := by
          rw [hnext]; simp only [SAVE_DELAY_MS]; omega
        have e : (SaveOp.tick t).apply s = { SaveSettings s with nextSaveTimeMS := 0 } :=
          MaybeSaveSettings_due t s hne (by rw [hnext]; exact hdue)
        have hp : (programmedOffsets ((SaveOp.tick t).apply s).trace).length
            = (programmedOffsets s.trace).length + 1 := by
          rw [e]; exact SaveSettings_programmed s
        obtain ⟨i1, i2⟩ := saveTimes_ticks_idle ops ((SaveOp.tick t).apply s)
          (by rw [e]) hnone
        refine ⟨now_ms t, ?_, ?_, ?_, ?_⟩
        · simp only [saveTimes, hp, i1, SaveOp.ms, ne_eq, Nat.add_one_ne_self,
            not_false_eq_true, if_true, Nat.succ_ne_self]
        · rw [lastScheduleTime_of_no_schedule ops tl hnone]; exact hdue
        · simp only [runSaveOps, i2]; rw [e]
        · simp only [runSaveOps, i2]; exact hp
      · have e : (SaveOp.tick t).apply s = s :=
          MaybeSaveSettings_early t s (by rw [hnext]; omega)
        have hge3 : ∀ op2 ∈ ops, tl ≤ op2.ms := fun op2 hop => hge op2 (List.mem_cons_of_mem _ hop)
        have hL := le_lastScheduleTime ops tl hge3 hsorted.2
        have htick2 : ∃ u ∈ tickTimes ops, lastScheduleTime ops tl + SAVE_DELAY_MS ≤ u := by
          obtain ⟨u, hu, hle⟩ := htick
          simp only [tickTimes, List.mem_cons] at hu
          rcases hu with hu | hu
          · exfalso; rw [hu] at hle; omega
          · exact ⟨u, hu, hle⟩
        obtain ⟨u, h1, h2, h3, h4⟩ := ih s tl hnext hge3 hsorted.2 hchain htick2
        refine ⟨u, ?_, h2, ?_, ?_⟩
        · simp only [saveTimes, e, ne_eq, not_true_eq_false, if_false]; exact h1
        · simp only [runSaveOps, e]; exact h3
        · simp only [runSaveOps, e]; exact h4

/-- With no save pending and at least one `ScheduleSaveSettings` call still to come. -/
theorem debounce_from_idle (ops : List SaveOp) :
    ∀ (s : State) (d : Nat), s.nextSaveTimeMS = 0 →
      (ops.map SaveOp.ms).Pairwise (· ≤ ·) →
      List.Chain' (fun a b => b < a + SAVE_DELAY_MS) (scheduleTimes ops) →
      scheduleTimes ops ≠ [] →
      (∃ u ∈ tickTimes ops, lastScheduleTime ops d + SAVE_DELAY_MS ≤ u) →
      ∃ u, saveTimes ops s = [u] ∧ lastScheduleTime ops d + SAVE_DELAY_MS ≤ u ∧
        (runSaveOps ops s).nextSaveTimeMS = 0 ∧
        (programmedOffsets (runSaveOps ops s).trace).length
          = (programmedOffsets s.trace).length + 1 := by
  induction ops with
  | nil => intro s d _ _ _ hne; exact absurd rfl hne
  | cons op ops ih =>
    intro s d h0 hsorted hchain hne htick
    rw [List.map_cons, List.pairwise_cons] at hsorted
    have hge2 : ∀ op2 ∈ ops, op.ms ≤ op2.ms :=
      fun op2 hop => hsorted.1 _ (List.mem_map_of_mem _ hop)
    cases op with
    | schedule t =>
      have hnext1 : (ScheduleSaveSettings t s).nextSaveTimeMS = now_ms t + SAVE_DELAY_MS :=
        schedule_value t
      obtain ⟨u, h1, h2, h3, h4⟩ := debounce_pending ops (ScheduleSaveSettings t s) (now_ms t)
        hnext1 hge2 hsorted.2 hchain htick
      have htr : (ScheduleSaveSettings t s).trace = s.trace := by
        simp only [ScheduleSaveSettings]
      refine ⟨u, ?_, h2, ?_, ?_⟩
      · simp only [saveTimes, SaveOp.apply, htr, ne_eq, not_true_eq_false, if_false]
        exact h1
      · simp only [runSaveOps, SaveOp.apply]; exact h3
      · simp only [runSaveOps, SaveOp.apply]; rw [h4, htr]
    | tick t =>
      have e : (SaveOp.tick t).apply s = s := MaybeSaveSettings_idle t s h0
      simp only [scheduleTimes] at hchain hne
      simp only [lastScheduleTime] at htick ⊢
      have htick2 : ∃ u ∈ tickTimes ops, lastScheduleTime ops d + SAVE_DELAY_MS ≤ u := by
        obtain ⟨u, hu, hle⟩ := htick
        simp only [tickTimes, List.mem_cons] at hu
        rcases hu with hu | hu
        · exfalso
          obtain ⟨op2, hop2, e2⟩ := mem_scheduleTimes ops _ (lastScheduleTime_mem ops d hne)
          have := hge2 op2 hop2
          rw [e2] at this
          have h5 : now_ms t ≤ lastScheduleTime ops d := this
          rw [hu] at hle
          simp only [SAVE_DELAY_MS] at hle
          omega
        · exact ⟨u, hu, hle⟩
      obtain ⟨u, h1, h2, h3, h4⟩ := ih s d h0 hsorted.2 hchain hne htick2
      refine ⟨u, ?_, h2, ?_, ?_⟩
      · simp only [saveTimes, e, ne_eq, not_true_eq_false, if_false]; exact h1
      · simp only [runSaveOps, e]; exact h3
      · simp only [runSaveOps, e]; exact h4

/-- C10.  Start with no save scheduled.  Let `ScheduleSaveSettings` be called `M ≥ 1`
times and `MaybeSaveSettings` any number of times, the calls being in order of
non-decreasing millisecond time, each `ScheduleSaveSettings` call less than
`SAVE_DELAY_MS` after the one before it, and at least one `MaybeSaveSettings` call at or
after `t_M + SAVE_DELAY_MS`, where `t_M` is the time of the last `ScheduleSaveSettings`
call.  Then exactly one of the `MaybeSaveSettings` calls performs `SaveSettings` (one
flash program is added to the trace), its time is at least `t_M + SAVE_DELAY_MS`, and
at the end `nextSaveTimeMS` is 0. -/
theorem C10_debounced_save_runs_once (ops : List SaveOp) (s : State)
    (hidle : s.nextSaveTimeMS = 0)
    (hsorted : (ops.map SaveOp.ms).Pairwise (· ≤ ·))
    (hgap : List.Chain' (fun a b => b < a + SAVE_DELAY_MS) (scheduleTimes ops))
    (hM : 1 ≤ (scheduleTimes ops).length)
    (htick : ∃ u ∈ tickTimes ops, lastScheduleTime ops 0 + SAVE_DELAY_MS ≤ u) :
    ∃ u, saveTimes ops s = [u] ∧ lastScheduleTime ops 0 + SAVE_DELAY_MS ≤ u ∧
      (runSaveOps ops s).nextSaveTimeMS = 0 ∧
      (programmedOffsets (runSaveOps ops s).trace).length
        = (programmedOffsets s.trace).length + 1 :=
  debounce_from_idle ops s 0 hidle hsorted hgap
    (fun h => by rw [h] at hM; simp at hM) htick

/-- C10 at a concrete input: `debounceExample` from boot on an erased flash; the save
happens at the 8500 ms tick, the first one at or after 3000 + 5000 ms. -/
theorem C10_debounced_save_runs_once_witness :
    (scheduleTimes debounceExample = [1000, 3000] ∧
      tickTimes debounceExample = [2000, 7000, 8500, 9000]) ∧
    ∃ u, saveTimes debounceExample (boot erasedFlash) = [u] ∧
      lastScheduleTime debounceExample 0 + SAVE_DELAY_MS ≤ u ∧
      (runSaveOps debounceExample (boot erasedFlash)).nextSaveTimeMS = 0 ∧
      (programmedOffsets (runSaveOps debounceExample (boot erasedFlash)).trace).length
        = (programmedOffsets (boot erasedFlash).trace).length + 1 :=
  ⟨by decide,
    C10_debounced_save_runs_once debounceExample (boot erasedFlash) (by decide) (by decide)
      (by
        have e : scheduleTimes debounceExample = [1000, 3000] := by decide
        rw [e]; simp [SAVE_DELAY_MS])
      (by decide) (by decide)⟩

/-! ## Claims about sensor edges, confirmation and button frames -/

/-- C11.  In every mode of the navigable group (`UI_JOG`, `UI_DEPTH0..UI_DEPTH3`, `UI_TON`,
`UI_TOFF`: ordinal below 7), a SparkDetected event, i.e. one `SparklingThread` iteration
whose sensor sample is true while the previous sample was false, sets the mode to
`UI_PREBURN`. -/
theorem C11_spark_detected_in_group_sets_preburn (s : State) (hgroup : s.uiState.toNat < 7)
    (hlow : s.wasSparking = false) :
    s.uiState ≠ UI_PREBURN ∧ (SparklingThread_iteration true s).uiState = UI_PREBURN := by
  constructor
  · intro h; rw [h] at hgroup; revert hgroup; decide
  · rw [SparklingThread_iteration_uiState, hlow]; rfl

/-- C11 at a concrete input: a rising edge in `UI_TON`. -/
theorem C11_spark_detected_in_group_sets_preburn_witness :
    (stateInMode UI_TON false).uiState = UI_TON ∧
    (SparklingThread_iteration true (stateInMode UI_TON false)).uiState = UI_PREBURN :=
  ⟨rfl, (C11_spark_detected_in_group_sets_preburn (stateInMode UI_TON false)
    (by decide) rfl).2⟩

/-- C12.  In every mode, a SparkCleared event, i.e. one `SparklingThread` iteration whose
sensor sample is false while the previous sample was true, sets the mode to `UI_JOG`. -/
theorem C12_spark_cleared_sets_jog (s : State) (hhigh : s.wasSparking = true) :
    (SparklingThread_iteration false s).uiState = UI_JOG := by
  rw [SparklingThread_iteration_uiState, hhigh]; rfl

/-- C12 at concrete inputs: a falling edge in `UI_POSTBURN`, in `UI_BURN`, in `UI_PREBURN`
and in `UI_DEPTH1`. -/
theorem C12_spark_cleared_sets_jog_witness :
    (SparklingThread_iteration false (stateInMode UI_POSTBURN true)).uiState = UI_JOG ∧
    (SparklingThread_iteration false (stateInMode UI_BURN true)).uiState = UI_JOG ∧
    (SparklingThread_iteration false (stateInMode UI_PREBURN true)).uiState = UI_JOG ∧
    (SparklingThread_iteration false (stateInMode UI_DEPTH1 true)).uiState = UI_JOG :=
  ⟨C12_spark_cleared_sets_jog (stateInMode UI_POSTBURN true) rfl,
    C12_spark_cleared_sets_jog (stateInMode UI_BURN true) rfl,
    C12_spark_cleared_sets_jog (stateInMode UI_PREBURN true) rfl,
    C12_spark_cleared_sets_jog (stateInMode UI_DEPTH1 true) rfl⟩

theorem handle_ui_preburn_rezeroOnBurn (tUp tDown : Nat) (s : State) :
    (handle_ui_preburn tUp tDown s).rezeroOnBurn =
      if (TryUseUpButton tUp s).1 = true then true
      else if (TryUseDownButton tDown s).1 = true then false
      else s.rezeroOnBurn := by
  simp only [handle_ui_preburn, TryUseUpButton, TryUseDownButton,
    apply_ite Prod.fst, apply_ite Prod.snd, apply_ite State.rezeroOnBurn,
    apply_ite State.downRepeatTime, ite_self]

/-- C13.  One `handle_ui_preburn` call (the handler the main loop runs in `UI_PREBURN`) in
which the Up tick fires sets `rezeroOnBurn` to true and the mode to `UI_BURN`; one in
which the Up tick does not fire and the Down tick fires sets `rezeroOnBurn` to false and
the mode to `UI_BURN`; one in which neither fires leaves the mode and `rezeroOnBurn`
unchanged.  The main-loop iteration in `UI_PREBURN` has the same effect on both. -/
theorem C13_preburn_confirmation (s : State) (tUp tDown tSave : Nat)
    (hmode : s.uiState = UI_PREBURN) :
    ((TryUseUpButton tUp s).1 = true →
      (handle_ui_preburn tUp tDown s).rezeroOnBurn = true ∧
      (handle_ui_preburn tUp tDown s).uiState = UI_BURN) ∧
    ((TryUseUpButton tUp s).1 = false → (TryUseDownButton tDown s).1 = true →
      (handle_ui_preburn tUp tDown s).rezeroOnBurn = false ∧
      (handle_ui_preburn tUp tDown s).uiState = UI_BURN) ∧
    ((TryUseUpButton tUp s).1 = false → (TryUseDownButton tDown s).1 = false →
      (handle_ui_preburn tUp tDown s).rezeroOnBurn = s.rezeroOnBurn ∧
      (handle_ui_preburn tUp tDown s).uiState = UI_PREBURN) ∧
    (main_iteration tUp tDown tSave s).uiState = (handle_ui_preburn tUp tDown s).uiState ∧
    (main_iteration tUp tDown tSave s).rezeroOnBurn
      = (handle_ui_preburn tUp tDown s).rezeroOnBurn := by
  refine ⟨?_, ?_, ?_, ?_, ?_⟩
  · intro hu
    rw [handle_ui_preburn_rezeroOnBurn, handle_ui_preburn_uiState, if_pos hu,
      if_pos (Or.inl hu)]
    exact ⟨rfl, rfl⟩
  · intro hu hd
    rw [handle_ui_preburn_rezeroOnBurn, handle_ui_preburn_uiState, hu, hd]
    simp only [Bool.false_eq_true, if_false, if_true, false_or, and_self]
  · intro hu hd
    rw [handle_ui_preburn_rezeroOnBurn, handle_ui_preburn_uiState, hu, hd, hmode]
    simp only [Bool.false_eq_true, if_false, or_self, and_self]
  · rw [main_iteration_uiState, if_pos hmode]
  · simp only [main_iteration, hmode]

/-- C13 at a concrete input: in `UI_PREBURN` with Up pressed at 1000 ms, the call at
1000 ms takes the Up tick. -/
theorem C13_preburn_confirmation_witness :
    (TryUseUpButton 1000000
      (step (Event.button { pin := PIN_BUTTON_UP, state := true } 1000000)
        (stateInMode UI_PREBURN true))).1 = true ∧
    (handle_ui_preburn 1000000 1000000
      (step (Event.button { pin := PIN_BUTTON_UP, state := true } 1000000)
        (stateInMode UI_PREBURN true))).rezeroOnBurn = true ∧
    (handle_ui_preburn 1000000 1000000
      (step (Event.button { pin := PIN_BUTTON_UP, state := true } 1000000)
        (stateInMode UI_PREBURN true))).uiState = UI_BURN :=
  ⟨by decide,
    (C13_preburn_confirmation
      (step (Event.button { pin := PIN_BUTTON_UP, state := true } 1000000)
        (stateInMode UI_PREBURN true))
      1000000 1000000 1000000 (by decide)).1 (by decide)⟩

/-- C14.  In `UI_PREBURN`, `UI_BURN` and `UI_POSTBURN`, `OnButtonStateChange` leaves the
mode unchanged for every button event: any pin (so each of the four buttons), press or
release, at any time; in particular Next and Prev do not navigate there. -/
theorem C14_buttons_keep_mode_in_burn_modes (s : State) (b : button_t) (t : Nat)
    (hmode : s.uiState = UI_PREBURN ∨ s.uiState = UI_BURN ∨ s.uiState = UI_POSTBURN) :
    (OnButtonStateChange b t s).uiState = s.uiState := by
  rw [OnButtonStateChange_uiState, if_pos]
  rcases hmode with h | h | h
  · exact Or.inr (Or.inr h)
  · exact Or.inl h
  · exact Or.inr (Or.inl h)

/-- C14 at concrete inputs: a Next event in `UI_PREBURN`, a Prev event in `UI_BURN` and an
Up press in `UI_POSTBURN`. -/
theorem C14_buttons_keep_mode_in_burn_modes_witness :
    (OnButtonStateChange { pin := PIN_BUTTON_NEXT, state := false } 1000000
      (stateInMode UI_PREBURN true)).uiState = UI_PREBURN ∧
    (OnButtonStateChange { pin := PIN_BUTTON_PREV, state := false } 1000000
      (stateInMode UI_BURN true)).uiState = UI_BURN ∧
    (OnButtonStateChange { pin := PIN_BUTTON_UP, state := true } 1000000
      (stateInMode UI_POSTBURN true)).uiState = UI_POSTBURN :=
  ⟨C14_buttons_keep_mode_in_burn_modes (stateInMode UI_PREBURN true) _ _ (Or.inl rfl),
    C14_buttons_keep_mode_in_burn_modes (stateInMode UI_BURN true) _ _ (Or.inr (Or.inl rfl)),
    C14_buttons_keep_mode_in_burn_modes (stateInMode UI_POSTBURN true) _ _
      (Or.inr (Or.inr rfl))⟩

/-- C15.  If none of the 10 slots has a marker equal to `SETTINGS_MAGIC`, `LoadSettings`
as run at boot leaves `settings` at the static defaults (`ton_us = 50`, `toff_us = 200`,
depth digits 0,0,0,0, write counter 0); and for every state, whatever the flash holds,
`LoadSettings` leaves the flash unchanged and calls no hardware function (no erase, no
program). -/
theorem C15_LoadSettings_defaults_and_no_write (flash : Nat → settings_t) (s : State) :
    ((∀ j, j < SETTINGS_MAX_BLOCKS → (flash (slotOffset j)).magic ≠ SETTINGS_MAGIC) →
      (boot flash).settings = defaultSettings ∧
      (boot flash).settings.ton_us = 50 ∧ (boot flash).settings.toff_us = 200 ∧
      (boot flash).settings.depthDigits0 = 0 ∧ (boot flash).settings.depthDigits1 = 0 ∧
      (boot flash).settings.depthDigits2 = 0 ∧ (boot flash).settings.depthDigits3 = 0 ∧
      (boot flash).settings.numWrites = 0) ∧
    (LoadSettings s).flash = s.flash ∧
    (LoadSettings s).trace = s.trace ∧
    (boot flash).flash = flash ∧
    (boot flash).trace = [] := by
  refine ⟨fun hinv => ?_, (LoadSettings_frame s).1, (LoadSettings_frame s).2.1,
    (boot_frame flash).1, (boot_frame flash).2.1⟩
  have h := boot_settings_of_invalid flash hinv
  rw [h]
  exact ⟨rfl, rfl, rfl, rfl, rfl, rfl, rfl, rfl⟩

/-- C15 at a concrete input: boot on an erased flash. -/
theorem C15_LoadSettings_defaults_and_no_write_witness :
    (∀ j, j < SETTINGS_MAX_BLOCKS → (erasedFlash (slotOffset j)).magic ≠ SETTINGS_MAGIC) ∧
    (boot erasedFlash).settings = defaultSettings :=
  ⟨fun _ _ => erasedRecord_magic,
    ((C15_LoadSettings_defaults_and_no_write erasedFlash (boot erasedFlash)).1
      (fun _ _ => erasedRecord_magic)).1⟩

/-! ## Claims about the save window, button tracking and step pulses -/

/-- C17.  Every `SaveSettings` call appends to the trace, in this order: interrupts
disabled, lockout of the other core started, erase of the target slot, program of the
same slot, lockout ended, interrupts restored.  So the erase and the program happen
while interrupts are disabled and the lockout is held, the target is one of the 10
slots and afterwards holds the record just serialised, and the other nine slots are
unchanged. -/
theorem C17_SaveSettings_effect_window (s : State) :
    (SaveSettings s).trace = s.trace ++
      [ Effect.save_and_disable_interrupts,
        Effect.multicore_lockout_start_blocking,
        Effect.flash_range_erase (slotOffset (targetSlot s.settings.numWrites)) SETTINGS_BLOCK_SIZE,
        Effect.flash_range_program (slotOffset (targetSlot s.settings.numWrites))
          (SaveSettings s).settings SETTINGS_BLOCK_SIZE,
        Effect.multicore_lockout_end_blocking,
        Effect.restore_interrupts ] ∧
    flashOpsGuarded false false
      [ Effect.save_and_disable_interrupts,
        Effect.multicore_lockout_start_blocking,
        Effect.flash_range_erase (slotOffset (targetSlot s.settings.numWrites)) SETTINGS_BLOCK_SIZE,
        Effect.flash_range_program (slotOffset (targetSlot s.settings.numWrites))
          (SaveSettings s).settings SETTINGS_BLOCK_SIZE,
        Effect.multicore_lockout_end_blocking,
        Effect.restore_interrupts ] = true ∧
    targetSlot s.settings.numWrites < SETTINGS_MAX_BLOCKS ∧
    (SaveSettings s).flash (slotOffset (targetSlot s.settings.numWrites))
      = (SaveSettings s).settings ∧
    (∀ j, j ≠ targetSlot s.settings.numWrites →
      (SaveSettings s).flash (slotOffset j) = s.flash (slotOffset j)) := by
  refine ⟨SaveSettings_trace s, ?_, slot_lt _, SaveSettings_flash_target s,
    fun j hj => SaveSettings_flash_other s j hj⟩
  simp only [flashOpsGuarded, Bool.and_self]

/-- C17 at a concrete input: the first `SaveSettings` after boot on an erased flash leaves
slot 3 erased. -/
theorem C17_SaveSettings_effect_window_witness :
    (3 : Nat) ≠ targetSlot (boot erasedFlash).settings.numWrites ∧
    (SaveSettings (boot erasedFlash)).flash (slotOffset 3) = erasedRecord :=
  ⟨by decide,
    ((C17_SaveSettings_effect_window (boot erasedFlash)).2.2.2.2 3 (by decide)).trans
      (by rw [(boot_frame erasedFlash).1]; rfl)⟩

theorem OnButtonStateChange_up (state : Bool) (t : Nat) (s : State)
    (h1 : s.uiState ≠ UI_BURN) (h2 : s.uiState ≠ UI_POSTBURN) :
    (OnButtonStateChange { pin := PIN_BUTTON_UP, state := state } t s).upPressed = state ∧
    (OnButtonStateChange { pin := PIN_BUTTON_UP, state := state } t s).upRepeatTime
      = (if state = true then (now_ms t + U64 - 1) % U64 else 0) ∧
    (OnButtonStateChange { pin := PIN_BUTTON_UP, state := state } t s).downPressed
      = s.downPressed ∧
    (OnButtonStateChange { pin := PIN_BUTTON_UP, state := state } t s).downRepeatTime
      = s.downRepeatTime ∧
    (OnButtonStateChange { pin := PIN_BUTTON_UP, state := state } t s).uiState = s.uiState := by
  have hn : ¬ (s.uiState = UI_BURN ∨ s.uiState = UI_POSTBURN) := by
    rintro (h | h)
    · exact h1 h
    · exact h2 h
  simp only [OnButtonStateChange, hn, if_false, if_true, PIN_BUTTON_UP, PIN_BUTTON_DOWN,
    PIN_BUTTON_NEXT, PIN_BUTTON_PREV, Nat.reduceEqDiff,
    apply_ite State.upPressed, apply_ite State.upRepeatTime, apply_ite State.downPressed,
    apply_ite State.downRepeatTime, apply_ite State.uiState, ite_self, and_self]

theorem OnButtonStateChange_down (state : Bool) (t : Nat) (s : State)
    (h1 : s.uiState ≠ UI_BURN) (h2 : s.uiState ≠ UI_POSTBURN) :
    (OnButtonStateChange { pin := PIN_BUTTON_DOWN, state := state } t s).downPressed = state ∧
    (OnButtonStateChange { pin := PIN_BUTTON_DOWN, state := state } t s).downRepeatTime
      = (if state = true then (now_ms t + U64 - 1) % U64 else 0) ∧
    (OnButtonStateChange { pin := PIN_BUTTON_DOWN, state := state } t s).upPressed
      = s.upPressed ∧
    (OnButtonStateChange { pin := PIN_BUTTON_DOWN, state := state } t s).upRepeatTime
      = s.upRepeatTime ∧
    (OnButtonStateChange { pin := PIN_BUTTON_DOWN, state := state } t s).uiState
      = s.uiState := by
  have hn : ¬ (s.uiState = UI_BURN ∨ s.uiState = UI_POSTBURN) := by
    rintro (h | h)
    · exact h1 h
    · exact h2 h
  simp only [OnButtonStateChange, hn, if_false, if_true, PIN_BUTTON_UP, PIN_BUTTON_DOWN,
    PIN_BUTTON_NEXT, PIN_BUTTON_PREV, Nat.reduceEqDiff,
    apply_ite State.upPressed, apply_ite State.upRepeatTime, apply_ite State.downPressed,
    apply_ite State.downRepeatTime, apply_ite State.uiState, ite_self, and_self]

theorem OnButtonStateChange_burn (b : button_t) (t : Nat) (s : State)
    (h : s.uiState = UI_BURN ∨ s.uiState = UI_POSTBURN) :
    OnButtonStateChange b t s = s := by
  simp only [OnButtonStateChange, h, if_true]

/-- C19.  For an Up or Down button event handled by `OnButtonStateChange`: in `UI_BURN` and
`UI_POSTBURN` the whole state is unchanged; in every other mode, `UI_PREBURN` included,
the held flag of that button becomes the event's state and its repeat timestamp becomes
`time_us_64() / 1000 - 1` (in 64-bit unsigned arithmetic, which is the number
`now_ms - 1` from 1 ms on) on press and 0 on release, while the other button's flag and
timestamp and the mode are unchanged. -/
theorem C19_up_down_tracking (s : State) (state : Bool) (t : Nat) :
    ((s.uiState = UI_BURN ∨ s.uiState = UI_POSTBURN) →
      OnButtonStateChange { pin := PIN_BUTTON_UP, state := state } t s = s ∧
      OnButtonStateChange { pin := PIN_BUTTON_DOWN, state := state } t s = s) ∧
    (s.uiState ≠ UI_BURN → s.uiState ≠ UI_POSTBURN →
      ((OnButtonStateChange { pin := PIN_BUTTON_UP, state := state } t s).upPressed = state ∧
        (OnButtonStateChange { pin := PIN_BUTTON_UP, state := state } t s).upRepeatTime
          = (if state = true then (now_ms t + U64 - 1) % U64 else 0) ∧
        (OnButtonStateChange { pin := PIN_BUTTON_UP, state := state } t s).downPressed
          = s.downPressed ∧
        (OnButtonStateChange { pin := PIN_BUTTON_UP, state := state } t s).downRepeatTime
          = s.downRepeatTime ∧
        (OnButtonStateChange { pin := PIN_BUTTON_UP, state := state } t s).uiState
          = s.uiState) ∧
      ((OnButtonStateChange { pin := PIN_BUTTON_DOWN, state := state } t s).downPressed
          = state ∧
        (OnButtonStateChange { pin := PIN_BUTTON_DOWN, state := state } t s).downRepeatTime
          = (if state = true then (now_ms t + U64 - 1) % U64 else 0) ∧
        (OnButtonStateChange { pin := PIN_BUTTON_DOWN, state := state } t s).upPressed
          = s.upPressed ∧
        (OnButtonStateChange { pin := PIN_BUTTON_DOWN, state := state } t s).upRepeatTime
          = s.upRepeatTime ∧
        (OnButtonStateChange { pin := PIN_BUTTON_DOWN, state := state } t s).uiState
          = s.uiState)) ∧
    (1 ≤ now_ms t → (now_ms t + U64 - 1) % U64 = now_ms t - 1) := by
  refine ⟨fun h => ⟨OnButtonStateChange_burn _ t s h, OnButtonStateChange_burn _ t s h⟩,
    fun h1 h2 => ⟨OnButtonStateChange_up state t s h1 h2,
      OnButtonStateChange_down state t s h1 h2⟩, fun h => ?_⟩
  have hlt : t % U64 < U64 := Nat.mod_lt _ (by norm_num [U64])
  simp only [now_ms, U64] at *
  omega

/-- C19 at concrete inputs: an Up press at 1000 ms in `UI_PREBURN` is recorded with
timestamp 999, and in `UI_BURN` it is dropped. -/
theorem C19_up_down_tracking_witness :
    ((OnButtonStateChange { pin := PIN_BUTTON_UP, state := true } 1000000
        (stateInMode UI_PREBURN true)).upPressed = true ∧
      (OnButtonStateChange { pin := PIN_BUTTON_UP, state := true } 1000000
        (stateInMode UI_PREBURN true)).upRepeatTime = 999) ∧
    (OnButtonStateChange { pin := PIN_BUTTON_UP, state := true } 1000000
      (stateInMode UI_BURN true)).upPressed = false :=
  have h := (C19_up_down_tracking (stateInMode UI_PREBURN true) true 1000000).2.1
    (by decide) (by decide)
  have hb := ((C19_up_down_tracking (stateInMode UI_BURN true) true 1000000).1
    (Or.inl rfl)).1
  ⟨⟨h.1.1, h.1.2.1.trans (by decide)⟩, by rw [hb]; rfl⟩

theorem SparklingThread_iteration_trace (sparking : Bool) (s : State) :
    (SparklingThread_iteration sparking s).trace = s.trace ++
      (if (SparklingThread_iteration sparking s).uiState = UI_JOG then
        (if s.shouldMove = true then stepPulse s.moveDirectionDown else [Effect.sleep_ms 5])
      else [Effect.sleep_ms 10]) := by
  simp only [SparklingThread_iteration, stepPulse, apply_ite State.trace,
    apply_ite State.uiState, apply_ite State.shouldMove, apply_ite State.moveDirectionDown,
    ite_self]
  split_ifs <;> simp_all

/-- C20.  One iteration of the `SparklingThread` loop first updates the mode from the
sensor sample: without an edge the mode stays, a rising edge gives `UI_PREBURN`, a falling
edge gives `UI_JOG`.  So the mode after the update is `UI_JOG` exactly when there is no
edge and the mode was `UI_JOG`, or there is a falling edge.  In that case and with
`shouldMove` true the iteration adds one step pulse to the trace, which is, in order:
direction pin written with `moveDirectionDown`, step pin high, 10 us wait, step pin low,
200 us wait.  In that case and with `shouldMove` false it adds a 5 ms sleep, and in every
other case (after the update the mode is `UI_PREBURN`, `UI_BURN`, `UI_POSTBURN` or an
edit mode) a 10 ms sleep; in both it writes no GPIO pin.  Hence the step pulse is
emitted if and only if the mode after the update is `UI_JOG` and `shouldMove` is
true. -/
theorem C20_step_pulse_only_in_jog (sparking : Bool) (s : State) :
    ((sparking = s.wasSparking →
        (SparklingThread_iteration sparking s).uiState = s.uiState) ∧
      (sparking ≠ s.wasSparking → sparking = true →
        (SparklingThread_iteration sparking s).uiState = UI_PREBURN) ∧
      (sparking ≠ s.wasSparking → sparking = false →
        (SparklingThread_iteration sparking s).uiState = UI_JOG)) ∧
    (((sparking = s.wasSparking ∧ s.uiState = UI_JOG) ∨
        (sparking ≠ s.wasSparking ∧ sparking = false)) →
      s.shouldMove = true →
      (SparklingThread_iteration sparking s).trace = s.trace ++
        [ Effect.gpio_put PIN_STEPPER_DIR s.moveDirectionDown,
          Effect.gpio_put PIN_STEPPER_STEP true,
          Effect.sleep_us 10,
          Effect.gpio_put PIN_STEPPER_STEP false,
          Effect.sleep_us 200 ]) ∧
    (((sparking = s.wasSparking ∧ s.uiState = UI_JOG) ∨
        (sparking ≠ s.wasSparking ∧ sparking = false)) →
      s.shouldMove = false →
      (SparklingThread_iteration sparking s).trace = s.trace ++ [Effect.sleep_ms 5]) ∧
    (¬ ((sparking = s.wasSparking ∧ s.uiState = UI_JOG) ∨
        (sparking ≠ s.wasSparking ∧ sparking = false)) →
      (SparklingThread_iteration sparking s).trace = s.trace ++ [Effect.sleep_ms 10]) ∧
    (∃ added : List Effect,
      (SparklingThread_iteration sparking s).trace = s.trace ++ added ∧
      (added = stepPulse s.moveDirectionDown ↔
        ((SparklingThread_iteration sparking s).uiState = UI_JOG ∧ s.shouldMove = true)) ∧
      (writesGpio added = true ↔
        ((SparklingThread_iteration sparking s).uiState = UI_JOG ∧ s.shouldMove = true)) ∧
      (added = stepPulse s.moveDirectionDown ∨ added = [Effect.sleep_ms 5] ∨
        added = [Effect.sleep_ms 10]) ∧
      stepPulse s.moveDirectionDown =
        [ Effect.gpio_put PIN_STEPPER_DIR s.moveDirectionDown,
          Effect.gpio_put PIN_STEPPER_STEP true,
          Effect.sleep_us 10,
          Effect.gpio_put PIN_STEPPER_STEP false,
          Effect.sleep_us 200 ]) := by
  have hmode := SparklingThread_iteration_uiState sparking s
  have htrace := SparklingThread_iteration_trace sparking s
  have hjog : ((sparking = s.wasSparking ∧ s.uiState = UI_JOG) ∨
      (sparking ≠ s.wasSparking ∧ sparking = false)) ↔
      (SparklingThread_iteration sparking s).uiState = UI_JOG := by
    rw [hmode]
    by_cases he : sparking = s.wasSparking
    · simp only [he, ne_eq, not_true_eq_false, if_false, true_and, false_and, or_false]
    · cases sparking
      · simp only [he, ne_eq, not_false_eq_true, if_true, Bool.false_eq_true, if_false,
          false_and, true_and, or_true]
      · simp only [he, ne_eq, not_false_eq_true, if_true, false_and, Bool.true_eq_false,
          and_false, or_false, reduceCtorEq]
  refine ⟨⟨?_, ?_, ?_⟩, ?_, ?_, ?_, ?_⟩
  · intro he
    rw [hmode, if_neg (not_not.mpr he)]
  · intro he ht
    rw [hmode, if_pos he, if_pos ht]
  · intro he hf
    rw [hmode, if_pos he, hf]
    rfl
  · intro hj hm
    rw [htrace, if_pos (hjog.mp hj), if_pos hm]
    rfl
  · intro hj hm
    rw [htrace, if_pos (hjog.mp hj), hm]
    rfl
  · intro hj
    rw [htrace, if_neg (fun h => hj (hjog.mpr h))]
  · refine ⟨_, htrace, ?_, ?_, ?_, rfl⟩
    · split_ifs with h1 h2
      · exact ⟨fun _ => ⟨h1, h2⟩, fun _ => rfl⟩
      · exact ⟨fun h => by simp [stepPulse] at h, fun h => absurd h.2 h2⟩
      · exact ⟨fun h => by simp [stepPulse] at h, fun h => absurd h.1 h1⟩
    · split_ifs with h1 h2
      · exact ⟨fun _ => ⟨h1, h2⟩, fun _ => rfl⟩
      · exact ⟨fun h => by simp [writesGpio] at h, fun h => absurd h.2 h2⟩
      · exact ⟨fun h => by simp [writesGpio] at h, fun h => absurd h.1 h1⟩
    · split_ifs
      · exact Or.inl rfl
      · exact Or.inr (Or.inl rfl)
      · exact Or.inr (Or.inr rfl)

/-- C20 at concrete inputs.  After boot, an Up press and one main-loop iteration the mode
is `UI_JOG` with `shouldMove` true and direction up: an iteration without a sensor edge
emits the step pulse.  After `jogThenNext` the mode is `UI_DEPTH0` with `shouldMove`
still true: an iteration without an edge only sleeps 10 ms. -/
theorem C20_step_pulse_only_in_jog_witness :
    ((run [Event.button { pin := PIN_BUTTON_UP, state := true } 1000000,
          Event.ui 1000000 1000000 1000000] (boot erasedFlash)).uiState = UI_JOG ∧
      (run [Event.button { pin := PIN_BUTTON_UP, state := true } 1000000,
          Event.ui 1000000 1000000 1000000] (boot erasedFlash)).shouldMove = true) ∧
    (SparklingThread_iteration false
      (run [Event.button { pin := PIN_BUTTON_UP, state := true } 1000000,
        Event.ui 1000000 1000000 1000000] (boot erasedFlash))).trace
      = (run [Event.button { pin := PIN_BUTTON_UP, state := true } 1000000,
          Event.ui 1000000 1000000 1000000] (boot erasedFlash)).trace ++
        [ Effect.gpio_put PIN_STEPPER_DIR false,
          Effect.gpio_put PIN_STEPPER_STEP true,
          Effect.sleep_us 10,
          Effect.gpio_put PIN_STEPPER_STEP false,
          Effect.sleep_us 200 ] ∧
    ((run jogThenNext (boot erasedFlash)).uiState = UI_DEPTH0 ∧
      (run jogThenNext (boot erasedFlash)).shouldMove = true) ∧
    (SparklingThread_iteration false (run jogThenNext (boot erasedFlash))).trace
      = (run jogThenNext (boot erasedFlash)).trace ++ [Effect.sleep_ms 10] :=
  ⟨by decide,
    (C20_step_pulse_only_in_jog false
      (run [Event.button { pin := PIN_BUTTON_UP, state := true } 1000000,
        Event.ui 1000000 1000000 1000000] (boot erasedFlash))).2.1
      (Or.inl (by decide)) (by decide),
    by decide,
    (C20_step_pulse_only_in_jog false (run jogThenNext (boot erasedFlash))).2.2.2.1
      (by decide)⟩

/-! ## Facts about the repeat ticks -/

theorem now_ms_lt (t : Nat) : now_ms t + REPEAT_TIME_MS < U64 := by
  have h : t % U64 < U64 := Nat.mod_lt _ (by norm_num [U64])
  simp only [now_ms, REPEAT_TIME_MS, U64] at *
  omega

theorem TryUseUpButton_cases (t : Nat) (s : State) :
    ((TryUseUpButton t s).1 = true ∧ 0 < s.upRepeatTime ∧ s.upRepeatTime < now_ms t ∧
      (TryUseUpButton t s).2.upRepeatTime = s.upRepeatTime + REPEAT_TIME_MS) ∨
    ((TryUseUpButton t s).1 = false ∧ (TryUseUpButton t s).2 = s) := by
  by_cases h : s.upRepeatTime > 0 ∧ now_ms t > s.upRepeatTime
  · left
    have hlt := now_ms_lt t
    have e : (s.upRepeatTime + REPEAT_TIME_MS) % U64 = s.upRepeatTime + REPEAT_TIME_MS :=
      Nat.mod_eq_of_lt (by omega)
    simp only [TryUseUpButton, h, and_self, if_true, e, true_and]
  · right
    simp only [TryUseUpButton, h, if_false, and_self]

theorem TryUseDownButton_cases (t : Nat) (s : State) :
    ((TryUseDownButton t s).1 = true ∧ 0 < s.downRepeatTime ∧ s.downRepeatTime < now_ms t ∧
      (TryUseDownButton t s).2.downRepeatTime = s.downRepeatTime + REPEAT_TIME_MS) ∨
    ((TryUseDownButton t s).1 = false ∧ (TryUseDownButton t s).2 = s) := by
  by_cases h : s.downRepeatTime > 0 ∧ now_ms t > s.downRepeatTime
  · left
    have hlt := now_ms_lt t
    have e : (s.downRepeatTime + REPEAT_TIME_MS) % U64 = s.downRepeatTime + REPEAT_TIME_MS :=
      Nat.mod_eq_of_lt (by omega)
    simp only [TryUseDownButton, h, and_self, if_true, e, true_and]
  · right
    simp only [TryUseDownButton, h, if_false, and_self]

/-- The tick number `n` (counted from 0) of a run of polls comes after the deadline the
run started with plus `n` repeat periods. -/
theorem pollUp_deadline (ts : List Nat) :
    ∀ (s : State) (n u : Nat), (pollUp ts s)[n]? = some u →
      s.upRepeatTime + n * REPEAT_TIME_MS < u := by
  induction ts with
  | nil => intro s n u h; simp [pollUp] at h
  | cons t ts ih =>
    intro s n u h
    rcases TryUseUpButton_cases t s with ⟨h1, _, h3, h4⟩ | ⟨h1, h2⟩
    · simp only [pollUp, h1, if_true] at h
      cases n with
      | zero =>
        simp only [List.getElem?_cons_zero, Option.some.injEq] at h
        omega
      | succ k =>
        simp only [List.getElem?_cons_succ] at h
        have := ih _ k u h
        rw [h4] at this
        simp only [REPEAT_TIME_MS] at *
        omega
    · simp only [pollUp, h1, Bool.false_eq_true, if_false, h2] at h
      exact ih s n u h

theorem pollDown_deadline (ts : List Nat) :
    ∀ (s : State) (n u : Nat), (pollDown ts s)[n]? = some u →
      s.downRepeatTime + n * REPEAT_TIME_MS < u := by
  induction ts with
  | nil => intro s n u h; simp [pollDown] at h
  | cons t ts ih =>
    intro s n u h
    rcases TryUseDownButton_cases t s with ⟨h1, _, h3, h4⟩ | ⟨h1, h2⟩
    · simp only [pollDown, h1, if_true] at h
      cases n with
      | zero =>
        simp only [List.getElem?_cons_zero, Option.some.injEq] at h
        omega
      | succ k =>
        simp only [List.getElem?_cons_succ] at h
        have := ih _ k u h
        rw [h4] at this
        simp only [REPEAT_TIME_MS] at *
        omega
    · simp only [pollDown, h1, Bool.false_eq_true, if_false, h2] at h
      exact ih s n u h

theorem pollUp_disarmed (ts : List Nat) :
    ∀ s : State, s.upRepeatTime = 0 → pollUp ts s = [] := by
  induction ts with
  | nil => intro s _; rfl
  | cons t ts ih =>
    intro s h
    rcases TryUseUpButton_cases t s with ⟨_, h2, _, _⟩ | ⟨h1, h2⟩
    · omega
    · simp only [pollUp, h1, Bool.false_eq_true, if_false, h2]
      exact ih s h

theorem pollDown_disarmed (ts : List Nat) :
    ∀ s : State, s.downRepeatTime = 0 → pollDown ts s = [] := by
  induction ts with
  | nil => intro s _; rfl
  | cons t ts ih =>
    intro s h
    rcases TryUseDownButton_cases t s with ⟨_, h2, _, _⟩ | ⟨h1, h2⟩
    · omega
    · simp only [pollDown, h1, Bool.false_eq_true, if_false, h2]
      exact ih s h

/-! ## Claims about the repeat ticks -/

/-- C16 (the claim fails).  Up is pressed at 1000 ms and first polled at 1500 ms and
1501 ms: both polls return true, 1 ms apart.  And when Up is held into `UI_BURN` and
released there, the release is dropped, and a poll at 3000 ms still returns true. -/
theorem C16_overdue_ticks_and_dropped_release :
    pollUp [1500000, 1501000]
      (OnButtonStateChange { pin := PIN_BUTTON_UP, state := true } 1000000 (boot erasedFlash))
      = [1500, 1501] ∧
    (run holdUpIntoBurn (boot erasedFlash)).uiState = UI_BURN ∧
    pollUp [3000000]
      (OnButtonStateChange { pin := PIN_BUTTON_UP, state := false } 2000000
        (run holdUpIntoBurn (boot erasedFlash)))
      = [3000] := by
  decide

/-- C16 (amended).  Let Up (resp. Down) be pressed at `t0 ≥ 2 ms` in a mode other than
`UI_BURN` / `UI_POSTBURN`.  A `TryUseUpButton` (resp. `TryUseDownButton`) poll made first
at any time `≥ t0` returns true.  For any later polls, the poll that returns true as
number `n + 1` of the hold comes no earlier than `t0 + n * REPEAT_TIME_MS`.  After a
release handled in a mode other than `UI_BURN` / `UI_POSTBURN` no poll returns true. -/
theorem C16_repeat_tick_deadlines (s : State) (t0 : Nat)
    (hburn : s.uiState ≠ UI_BURN) (hpost : s.uiState ≠ UI_POSTBURN) (ht0 : 2 ≤ now_ms t0) :
    ((∀ t, now_ms t0 ≤ now_ms t →
        (TryUseUpButton t
          (OnButtonStateChange { pin := PIN_BUTTON_UP, state := true } t0 s)).1 = true) ∧
      (∀ (ts : List Nat) (n u : Nat),
        (pollUp ts (OnButtonStateChange { pin := PIN_BUTTON_UP, state := true } t0 s))[n]?
          = some u →
        now_ms t0 + n * REPEAT_TIME_MS ≤ u) ∧
      (∀ (t : Nat) (ts : List Nat),
        pollUp ts (OnButtonStateChange { pin := PIN_BUTTON_UP, state := false } t s) = [])) ∧
    ((∀ t, now_ms t0 ≤ now_ms t →
        (TryUseDownButton t
          (OnButtonStateChange { pin := PIN_BUTTON_DOWN, state := true } t0 s)).1 = true) ∧
      (∀ (ts : List Nat) (n u : Nat),
        (pollDown ts (OnButtonStateChange { pin := PIN_BUTTON_DOWN, state := true } t0 s))[n]?
          = some u →
        now_ms t0 + n * REPEAT_TIME_MS ≤ u) ∧
      (∀ (t : Nat) (ts : List Nat),
        pollDown ts (OnButtonStateChange { pin := PIN_BUTTON_DOWN, state := false } t s)
          = [])) := by
  have hlt : t0 % U64 < U64 := Nat.mod_lt _ (by norm_num [U64])
  have harm : (now_ms t0 + U64 - 1) % U64 = now_ms t0 - 1 := by
    simp only [now_ms, U64] at *
    omega
  have hup : (OnButtonStateChange { pin := PIN_BUTTON_UP, state := true } t0 s).upRepeatTime
      = now_ms t0 - 1 := by
    rw [(OnButtonStateChange_up true t0 s hburn hpost).2.1, if_pos rfl, harm]
  have hdown :
      (OnButtonStateChange { pin := PIN_BUTTON_DOWN, state := true } t0 s).downRepeatTime
        = now_ms t0 - 1 := by
    rw [(OnButtonStateChange_down true t0 s hburn hpost).2.1, if_pos rfl, harm]
  refine ⟨⟨?_, ?_, ?_⟩, ⟨?_, ?_, ?_⟩⟩
  · intro t ht
    rw [TryUseUpButton_fires, hup, decide_eq_true_eq]
    omega
  · intro ts n u h
    have := pollUp_deadline ts _ n u h
    rw [hup] at this
    omega
  · intro t ts
    apply pollUp_disarmed
    rw [(OnButtonStateChange_up false t s hburn hpost).2.1]
    simp only [Bool.false_eq_true, if_false]
  · intro t ht
    rw [TryUseDownButton_fires, hdown, decide_eq_true_eq]
    omega
  · intro ts n u h
    have := pollDown_deadline ts _ n u h
    rw [hdown] at this
    omega
  · intro t ts
    apply pollDown_disarmed
    rw [(OnButtonStateChange_down false t s hburn hpost).2.1]
    simp only [Bool.false_eq_true, if_false]

/-- C16 (amended), at a concrete input: Up pressed at 1000 ms after boot and polled at
1000, 1100, 1150 and 1400 ms; the polls at 1000, 1150 and 1400 ms return true. -/
theorem C16_repeat_tick_deadlines_witness :
    (TryUseUpButton 1000000
      (OnButtonStateChange { pin := PIN_BUTTON_UP, state := true } 1000000
        (boot erasedFlash))).1 = true ∧
    pollUp [1000000, 1100000, 1150000, 1400000]
      (OnButtonStateChange { pin := PIN_BUTTON_UP, state := true } 1000000 (boot erasedFlash))
      = [1000, 1150, 1400] ∧
    now_ms 1000000 + 2 * REPEAT_TIME_MS ≤ 1400 :=
  have h := (C16_repeat_tick_deadlines (boot erasedFlash) 1000000 (by decide) (by decide)
    (by decide)).1
  have hp : pollUp [1000000, 1100000, 1150000, 1400000]
      (OnButtonStateChange { pin := PIN_BUTTON_UP, state := true } 1000000 (boot erasedFlash))
      = [1000, 1150, 1400] := by decide
  ⟨h.1 1000000 (le_refl _), hp,
    h.2.1 [1000000, 1100000, 1150000, 1400000] 2 1400 (by rw [hp]; rfl)⟩

/-! ## Facts about the race on `uiState` -/

theorem navMicroSteps_add (d a b : Nat) :
    ∀ x : NavPc × ui_state_t, navMicroSteps d (a + b) x = navMicroSteps d b (navMicroSteps d a x) := by
  induction a with
  | zero => intro x; simp only [Nat.zero_add, navMicroSteps]
  | succ a ih => intro x; rw [Nat.add_right_comm]; exact ih (navMicroStep d x)

theorem navMicroSteps_finished (d k : Nat) (m : ui_state_t) :
    navMicroSteps d k (NavPc.finished, m) = (NavPc.finished, m) := by
  induction k with
  | zero => rfl
  | succ k ih => exact ih

theorem navMicroSteps_five_finished (d : Nat) (m : ui_state_t) :
    (navMicroSteps d 5 (NavPc.atBurnCheck, m)).1 = NavPc.finished := by
  cases m <;> rfl

/-- Run without interruption, the accesses of the Next/Prev path give the mode that
`OnButtonStateChange` gives. -/
theorem navMicroSteps_refines (next : Bool) (t : Nat) (s : State) :
    (OnButtonStateChange { pin := navPin next, state := false } t s).uiState
      = (navMicroSteps (navDelta next) 5 (NavPc.atBurnCheck, s.uiState)).2 := by
  rw [OnButtonStateChange_uiState]
  cases next <;> cases h : s.uiState <;> decide

theorem SparklingThread_iteration_edge (sparking : Bool) (s : State)
    (hedge : sparking ≠ s.wasSparking) :
    (SparklingThread_iteration sparking s).uiState = sensorStore sparking := by
  rw [SparklingThread_iteration_uiState, if_pos hedge]
  cases sparking <;> rfl

theorem OnButtonStateChange_wasSparking (b : button_t) (t : Nat) (s : State) :
    (OnButtonStateChange b t s).wasSparking = s.wasSparking := by
  simp only [OnButtonStateChange, apply_ite State.wasSparking, ite_self]

theorem raceFinalMode_cases (next sparking : Bool) (k : Nat) (m : ui_state_t)
    (hk : k ≤ 2 ∨ 5 ≤ k) :
    raceFinalMode (navDelta next) sparking k m = sensorStore sparking ∨
    raceFinalMode (navDelta next) sparking k m
      = (navMicroSteps (navDelta next) 5 (NavPc.atBurnCheck, sensorStore sparking)).2 := by
  rcases hk with hk | hk
  · interval_cases k <;> cases next <;> cases sparking <;> cases m <;> decide
  · left
    obtain ⟨j, rfl⟩ := Nat.exists_eq_add_of_le hk
    simp only [raceFinalMode]
    rw [navMicroSteps_add, ← Prod.eta (navMicroSteps (navDelta next) 5 (NavPc.atBurnCheck, m)),
      navMicroSteps_five_finished, navMicroSteps_finished, navMicroSteps_finished]

/-! ## Claims about the race on `uiState` -/

/-- C18 (the claim fails).  In `UI_JOG` a Next event races with a rising sensor edge.  If
the sensor's store of `UI_PREBURN` falls between the callback's load and store of its
read-modify-write (after 4 accesses), the final mode is `UI_DEPTH0`; if it falls between
the `UI_PREBURN` check and that load (after 3 accesses), the final mode is `UI_DEPTH1`.
Executed atomically in either order the two updates end in `UI_PREBURN`. -/
theorem C18_sensor_update_lost :
    raceFinalMode (navDelta true) true 4 (boot erasedFlash).uiState = UI_DEPTH0 ∧
    raceFinalMode (navDelta true) true 3 (boot erasedFlash).uiState = UI_DEPTH1 ∧
    (SparklingThread_iteration true
      (OnButtonStateChange { pin := navPin true, state := false } 0
        (boot erasedFlash))).uiState = UI_PREBURN ∧
    (OnButtonStateChange { pin := navPin true, state := false } 0
      (SparklingThread_iteration true (boot erasedFlash))).uiState = UI_PREBURN := by
  decide

/-- C18 (amended).  The accesses of the Next/Prev path of `OnButtonStateChange`, run
without interruption, give the mode the callback gives.  When a sensor edge races with
a Next/Prev event and the sensor's store to `uiState` falls before the callback's load
for the `uiState == UI_PREBURN` check (after at most 2 of its accesses) or after the
callback has finished (after 5 or more), the final mode is the mode obtained by
executing the two updates atomically in one of the two orders. -/
theorem C18_race_outside_read_modify_write (s : State) (next sparking : Bool) (t k : Nat)
    (hedge : sparking ≠ s.wasSparking) (hk : k ≤ 2 ∨ 5 ≤ k) :
    (OnButtonStateChange { pin := navPin next, state := false } t s).uiState
      = (navMicroSteps (navDelta next) 5 (NavPc.atBurnCheck, s.uiState)).2 ∧
    (raceFinalMode (navDelta next) sparking k s.uiState
        = (SparklingThread_iteration sparking
            (OnButtonStateChange { pin := navPin next, state := false } t s)).uiState ∨
      raceFinalMode (navDelta next) sparking k s.uiState
        = (OnButtonStateChange { pin := navPin next, state := false } t
            (SparklingThread_iteration sparking s)).uiState) := by
  refine ⟨navMicroSteps_refines next t s, ?_⟩
  have h1 : (SparklingThread_iteration sparking
      (OnButtonStateChange { pin := navPin next, state := false } t s)).uiState
        = sensorStore sparking :=
    SparklingThread_iteration_edge sparking _ (by rw [OnButtonStateChange_wasSparking]; exact hedge)
  have h2 : (OnButtonStateChange { pin := navPin next, state := false } t
      (SparklingThread_iteration sparking s)).uiState
        = (navMicroSteps (navDelta next) 5 (NavPc.atBurnCheck, sensorStore sparking)).2 := by
    rw [navMicroSteps_refines, SparklingThread_iteration_edge sparking s hedge]
  rw [h1, h2]
  exact raceFinalMode_cases next sparking k s.uiState hk

/-- C18 (amended), at a concrete input: in `UI_JOG` after boot, a Next event and a rising
sensor edge whose store comes first; the final mode is `UI_PREBURN`. -/
theorem C18_race_outside_read_modify_write_witness :
    (true ≠ (boot erasedFlash).wasSparking) ∧
    raceFinalMode (navDelta true) true 0 (boot erasedFlash).uiState = UI_PREBURN ∧
    (raceFinalMode (navDelta true) true 0 (boot erasedFlash).uiState
        = (SparklingThread_iteration true
            (OnButtonStateChange { pin := navPin true, state := false } 0
              (boot erasedFlash))).uiState ∨
      raceFinalMode (navDelta true) true 0 (boot erasedFlash).uiState
        = (OnButtonStateChange { pin := navPin true, state := false } 0
            (SparklingThread_iteration true (boot erasedFlash))).uiState) :=
  ⟨by decide, by decide,
    (C18_race_outside_read_modify_write (boot erasedFlash) true true 0 0 (by decide)
      (Or.inl (by decide))).2⟩

end RavingPixies
